import Mathlib

/-!
# ndn-helloworld: request scheduler (client) and bounded responder (server)

A shallow embedding of `src/ndn-helloworld-client.cpp` and
`src/ndn-helloworld-server.cpp`.

* The two C++ classes become records of their member variables, extended with
  the observable state of their collaborators (what was handed to the face,
  whether the timer / signal wait is pending, whether the io context was
  stopped, the lines given to the logger).
* `uint64_t` counters are natural numbers; every `++` is followed by an
  explicit reduction modulo `2 ^ 64`.
* The process environment is explicit: the stream of words produced by
  `ndn::random::generateWord32`, the outcome of every call of
  `Face::expressInterest`, and the sequence of handlers the io context runs
  inside `Face::processEvents`.
* `getNewNonce` contains a `while` loop that only ends when the generator
  yields a word that is not in the pool, so it is modelled with a fuel
  parameter bounding the number of words drawn by one call.
-/

namespace ndnhw

/-! ## Values exchanged with the network -/

/-- Modulus of the `uint64_t` counters. -/
def UINT64_MOD : Nat := 2 ^ 64

/-- Modulus of the `uint32_t` nonces. -/
def WORD32_MOD : Nat := 2 ^ 32

/-- An `ndn::Name`: the URI text it was constructed from, followed by the
sequence-number components appended to it. -/
structure Name where
  uri : String
  seqs : List Nat
deriving DecidableEq

/-- The `ndn::Name(std::string)` constructor. -/
def Name.ofUri (uri : String) : Name := { uri := uri, seqs := [] }

/-- The member `Name::appendSequenceNumber`. -/
def Name.appendSequenceNumber (nm : Name) (n : Nat) : Name :=
  { nm with seqs := nm.seqs ++ [n] }

/-- The member `Name::toUri`, used for log lines only. -/
def Name.toUri (nm : Name) : String :=
  nm.seqs.foldl (fun acc n => acc ++ "/seq=" ++ toString n) nm.uri

/-- An `ndn::Interest` with the fields the client sets. -/
structure Interest where
  name : Name
  canBePrefix : Bool
  mustBeFresh : Bool
  nonce : Nat
  lifetimeMs : Nat
deriving DecidableEq

/-- The last sequence-number component of the name of an Interest (0 when
there is none). -/
def Interest.seqNo (i : Interest) : Nat := i.name.seqs.getLastD 0

/-- An `ndn::Data` with the fields the server sets. -/
structure Data where
  name : Name
  freshnessMs : Option Nat
  content : String
  signed : Bool
deriving DecidableEq

/-- One call of `Logger::log(line, flag, flag)`. -/
structure LogLine where
  text : String
  flagA : Bool
  flagB : Bool
deriving DecidableEq

/-- Modelled from the spec: `logger.hpp` (class `Logger`) is not among the
sources; the spec treats logging as an external collaborator, so the logger
is the identifier it was started with and the lines it was given, in order. -/
structure Logger where
  moduleName : String
  instanceId : Option Nat
  lines : List LogLine
deriving DecidableEq

/-- Start the logger under an instance identifier (first call in `run`). -/
def Logger.start (l : Logger) (instanceId : Nat) : Logger :=
  { l with instanceId := some instanceId }

/-- The member `Logger::log`. -/
def Logger.log (l : Logger) (text : String) (flagA flagB : Bool) : Logger :=
  { l with lines := l.lines ++ [{ text := text, flagA := flagA, flagB := flagB }] }

/-- The process environment of one run. -/
structure Env where
  /-- The `i`-th word returned by `ndn::random::generateWord32` is
  `rnd i % 2 ^ 32`. -/
  rnd : Nat → Nat
  /-- Outcome of the `i`-th call of `Face::expressInterest`: `none` when the
  face accepts the Interest, `some what` when it throws a `std::exception`
  whose message is `what`. -/
  expressInterest : Nat → Option String

/-- The member `ndn::random::generateWord32`, at position `pos` of the stream. -/
def generateWord32 (env : Env) (pos : Nat) : Nat := env.rnd pos % WORD32_MOD

/-- How a call of `run()` ends, for a given finite list of delivered events. -/
inductive Outcome (σ : Type) where
  /-- The call returned `code`, leaving the object in state `s`. -/
  | returned (code : Int) (s : σ)
  /-- All events were handled and `processEvents` is still waiting. -/
  | blocked (s : σ)
  /-- The nonce loop did not end within the fuel. -/
  | hung

/-- The value returned by `run()`, when it returned. -/
def Outcome.exitCode {σ : Type} : Outcome σ → Option Int
  | .returned code _ => some code
  | .blocked _ => none
  | .hung => none

/-- The state of the object when `run()` returned or is still waiting. -/
def Outcome.state? {σ : Type} : Outcome σ → Option σ
  | .returned _ s => some s
  | .blocked s => some s
  | .hung => none

/-- How `Face::processEvents` ends, for a given finite list of events. -/
inductive Loop (σ : Type) where
  /-- The io context was stopped and `processEvents` returned normally. -/
  | stopped (s : σ)
  /-- A `std::exception` with message `what` left `processEvents`. -/
  | threw (what : String) (s : σ)
  /-- All events were handled and the io context is still waiting. -/
  | blocked (s : σ)
  /-- The nonce loop did not end within the fuel. -/
  | hung

/-! ## The server: `NdnHelloWorldServer` -/

/-- The members of `NdnHelloWorldServer` and the observable state of its
face, signal set and io context. -/
structure NdnHelloWorldServer where
  m_logger : Logger
  namePrefix : String
  m_keyChainSigned : Nat
  m_nMaximumInterests : Option Nat
  m_nInterestsReceived : Nat
  m_wantQuiet : Bool
  m_hasError : Bool
  /-- The test `pattern.m_freshnessPeriod >= 0_ms` of `onInterest`; `pattern`
  is declared nowhere in the sources, so its value is a parameter. -/
  freshnessEnabled : Bool
  /-- Number of words drawn from the random generator. -/
  rndPos : Nat
  /-- Data packets handed to `Face::put`, in order. -/
  put : List Data
  /-- Set by `Face::setInterestFilter`. -/
  filterRegistered : Bool
  /-- Set by `m_signalSet.async_wait`. -/
  signalWaiting : Bool
  /-- Set by `m_signalSet.cancel()`. -/
  signalCancelled : Bool
  faceShutdown : Bool
  ioStopped : Bool
deriving DecidableEq

/-- Events the io context delivers to the server inside `processEvents`. -/
inductive ServerEvent where
  /-- An Interest under the registered filter arrived. -/
  | interest (i : Interest)
  /-- Registration of the filter failed. -/
  | registerFailed (reason : String)
  /-- The handler of `m_signalSet.async_wait` is invoked (a signal arrived,
  or the wait was cancelled; the handler ignores both of its arguments). -/
  | signal
  /-- A `std::exception` leaves `processEvents`. -/
  | channelError (what : String)

/-- Events other than the signal handler and an escaping exception. -/
def ServerEvent.isDelivery : ServerEvent → Bool
  | .interest _ => true
  | .registerFailed _ => true
  | .signal => false
  | .channelError _ => false

namespace NdnHelloWorldServer

/-- The constructor `NdnHelloWorldServer(prefix)` with the member initialisers. -/
def new (pfx : String) (freshnessEnabled : Bool) : NdnHelloWorldServer :=
  { m_logger := { moduleName := "NdnHelloWorldServer", instanceId := none, lines := [] }
    namePrefix := pfx
    m_keyChainSigned := 0
    m_nMaximumInterests := none
    m_nInterestsReceived := 0
    m_wantQuiet := false
    m_hasError := false
    freshnessEnabled := freshnessEnabled
    rndPos := 0
    put := []
    filterRegistered := false
    signalWaiting := false
    signalCancelled := false
    faceShutdown := false
    ioStopped := false }

/-- The member `setMaximumInterests`. -/
def setMaximumInterests (s : NdnHelloWorldServer) (maxInterests : Nat) : NdnHelloWorldServer :=
  { s with m_nMaximumInterests := some maxInterests }

/-- Modelled from the spec: the member `setQuietLogging` is called by `main`
but declared nowhere in the sources; following the spec's quiet-logging flag
("log unless quiet mode is set"), it sets the flag `m_wantQuiet` that
`onInterest` reads. -/
def setQuietLogging (s : NdnHelloWorldServer) : NdnHelloWorldServer :=
  { s with m_wantQuiet := true }

/-- The test `!m_nMaximumInterests || m_nInterestsReceived < *m_nMaximumInterests`. -/
def mayServe (s : NdnHelloWorldServer) : Bool :=
  match s.m_nMaximumInterests with
  | none => true
  | some n => decide (s.m_nInterestsReceived < n)

/-- The test `m_nMaximumInterests && m_nInterestsReceived >= *m_nMaximumInterests`. -/
def quotaReached (s : NdnHelloWorldServer) : Bool :=
  match s.m_nMaximumInterests with
  | none => false
  | some n => decide (n ≤ s.m_nInterestsReceived)

/-- The test `m_nMaximumInterests && m_nInterestsReceived < *m_nMaximumInterests`
of the signal handler. -/
def quotaUnmet (s : NdnHelloWorldServer) : Bool :=
  match s.m_nMaximumInterests with
  | none => false
  | some n => decide (s.m_nInterestsReceived < n)

/-- The Data packet built by `onInterest`. -/
def makeData (s : NdnHelloWorldServer) (interest : Interest) : Data :=
  { name := interest.name
    freshnessMs := if s.freshnessEnabled then some 1000 else none
    content := "Hello World!!!"
    signed := true }

/-- The member `onInterest` (signing and `Face::put` return normally). -/
def onInterest (s : NdnHelloWorldServer) (interest : Interest) : NdnHelloWorldServer :=
  let s1 :=
    if s.mayServe then
      let data := s.makeData interest
      let s2 := { s with m_keyChainSigned := s.m_keyChainSigned + 1 }
      let s3 := { s2 with m_nInterestsReceived := (s2.m_nInterestsReceived + 1) % UINT64_MOD }
      let s4 :=
        if !s3.m_wantQuiet then
          { s3 with m_logger :=
              s3.m_logger.log ("Interest Received Name=" ++ interest.name.toUri) true false }
        else s3
      { s4 with put := s4.put ++ [data] }
    else s
  if s1.quotaReached then { s1 with signalCancelled := true } else s1

/-- The member `onRegisterFailed`. -/
def onRegisterFailed (s : NdnHelloWorldServer) (reason : String) : NdnHelloWorldServer :=
  { s with m_logger := s.m_logger.log ("Prefix registration failed - Reason=" ++ reason) true true }

/-- The member `stop`. -/
def stop (s : NdnHelloWorldServer) : NdnHelloWorldServer :=
  { s with faceShutdown := true, ioStopped := true }

/-- The lambda given to `m_signalSet.async_wait` in `run`. -/
def signalHandler (s : NdnHelloWorldServer) : NdnHelloWorldServer :=
  let s1 := if s.quotaUnmet then { s with m_hasError := true } else s
  { s1 with signalWaiting := false }.stop

/-- The call `m_face.processEvents()`: handlers run one at a time, in the
order of delivery, until the io context is stopped or an exception escapes. -/
def processEvents : NdnHelloWorldServer → List ServerEvent → Loop NdnHelloWorldServer
  | s, [] => if s.ioStopped then .stopped s else .blocked s
  | s, e :: es =>
    if s.ioStopped then .stopped s
    else
      match e with
      | .interest i => processEvents (if s.filterRegistered then s.onInterest i else s) es
      | .registerFailed reason => processEvents (s.onRegisterFailed reason) es
      | .signal => processEvents (if s.signalWaiting then s.signalHandler else s) es
      | .channelError what => .threw what s

/-- First statement of `run`: the logger is started under a random word. -/
def started (env : Env) (s : NdnHelloWorldServer) : NdnHelloWorldServer :=
  { s with m_logger := s.m_logger.start (generateWord32 env s.rndPos),
           rndPos := s.rndPos + 1 }

/-- The statements of `run` between the zero test and `processEvents`: the
signal wait is started and the Interest filter is registered. -/
def listening (s : NdnHelloWorldServer) : NdnHelloWorldServer :=
  let s1 := { s with signalWaiting := true }
  { s1 with filterRegistered := true }

/-- The member `run`. -/
def run (env : Env) (s : NdnHelloWorldServer) (events : List ServerEvent) :
    Outcome NdnHelloWorldServer :=
  let s0 := s.started env
  if s0.m_nMaximumInterests == some 0 then .returned 0 s0
  else
    match processEvents s0.listening events with
    | .stopped s3 => .returned (if s3.m_hasError then 1 else 0) s3
    | .threw what s3 =>
      .returned 1 { s3 with m_logger := s3.m_logger.log ("ERROR: " ++ what) true true,
                            ioStopped := true }
    | .blocked s3 => .blocked s3
    | .hung => .hung

/-- A finite sequence of incoming requests, each handled by `onInterest`. -/
def onInterests (s : NdnHelloWorldServer) (reqs : List Interest) : NdnHelloWorldServer :=
  reqs.foldl onInterest s

end NdnHelloWorldServer

/-! ## The client: `NdnHelloWorldClient` -/

/-- The `boost::asio::steady_timer` local to `run`: its expiry, in
milliseconds since `run` constructed it, and whether a wait is pending. -/
structure Timer where
  expiry : Int
  pending : Bool
deriving DecidableEq

/-- The members of `NdnHelloWorldClient` and the observable state of its
face, timer, signal set and io context. -/
structure NdnHelloWorldClient where
  m_logger : Logger
  namePrefix : String
  m_nMaximumInterests : Option Nat
  /-- In milliseconds. -/
  m_interestInterval : Int
  m_nonces : List Nat
  m_nInterestsSent : Nat
  m_nInterestsReceived : Nat
  m_hasError : Bool
  /-- Number of words drawn from the random generator. -/
  rndPos : Nat
  /-- Every Interest passed to `Face::expressInterest`, in order. -/
  faceCalls : List Interest
  /-- The Interests the face accepted (the call returned normally), in order. -/
  expressed : List Interest
  timer : Timer
  /-- Set by `m_signalSet.async_wait`. -/
  signalWaiting : Bool
  faceShutdown : Bool
  ioStopped : Bool
deriving DecidableEq

/-- Events the io context delivers to the client inside `processEvents`. -/
inductive ClientEvent where
  /-- The pending wait on the timer completes. -/
  | timerExpired
  /-- A Data packet for a pending Interest arrived. -/
  | data (i : Interest) (d : Data)
  /-- A Nack for a pending Interest arrived. -/
  | nack (i : Interest) (reason : String)
  /-- A pending Interest reached the end of its lifetime. -/
  | timeout (i : Interest)
  /-- SIGINT or SIGTERM: the handler of `m_signalSet.async_wait` is invoked. -/
  | signal
  /-- A `std::exception` leaves `processEvents`. -/
  | channelError (what : String)
deriving DecidableEq

/-- Events other than the signal handler and an escaping exception. -/
def ClientEvent.isDelivery : ClientEvent → Bool
  | .timerExpired => true
  | .data _ _ => true
  | .nack _ _ => true
  | .timeout _ => true
  | .signal => false
  | .channelError _ => false

/-- Deliveries of a Data packet. -/
def ClientEvent.isData : ClientEvent → Bool
  | .data _ _ => true
  | _ => false

namespace NdnHelloWorldClient

/-- The constructor `NdnHelloWorldClient(prefix)` with the member initialisers. -/
def new (pfx : String) : NdnHelloWorldClient :=
  { m_logger := { moduleName := "NdnHelloWorldClient", instanceId := none, lines := [] }
    namePrefix := pfx
    m_nMaximumInterests := none
    m_interestInterval := 1000
    m_nonces := []
    m_nInterestsSent := 0
    m_nInterestsReceived := 0
    m_hasError := false
    rndPos := 0
    faceCalls := []
    expressed := []
    timer := { expiry := 0, pending := false }
    signalWaiting := false
    faceShutdown := false
    ioStopped := false }

/-- The member `setMaximumInterests`. -/
def setMaximumInterests (s : NdnHelloWorldClient) (maxInterests : Nat) : NdnHelloWorldClient :=
  { s with m_nMaximumInterests := some maxInterests }

/-- The member `setInterestInterval` (its assertion `interval > 0ms` is
established by `main` before the call). -/
def setInterestInterval (s : NdnHelloWorldClient) (interval : Int) : NdnHelloWorldClient :=
  { s with m_interestInterval := interval }

/-- The `while` loop of `getNewNonce` together with the draw before it: draw a
word at position `pos`; while it is found in `pool`, draw the next one.
Returns the word and the next position, or `none` when `fuel` draws did not
produce a word outside `pool`. -/
def nonceLoop (env : Env) (pool : List Nat) : Nat → Nat → Option (Nat × Nat)
  | 0, _ => none
  | fuel + 1, pos =>
    if generateWord32 env pos ∈ pool then nonceLoop env pool fuel (pos + 1)
    else some (generateWord32 env pos, pos + 1)

/-- The pool after the first statement of `getNewNonce`:
`if (m_nonces.size() >= 1000) m_nonces.clear();`. -/
def poolAfterClear (pool : List Nat) : List Nat :=
  if 1000 ≤ pool.length then [] else pool

/-- The member `getNewNonce`: the nonce returned and the state after the call. -/
def getNewNonce (env : Env) (fuel : Nat) (s : NdnHelloWorldClient) :
    Option (Nat × NdnHelloWorldClient) :=
  let s1 := { s with m_nonces := poolAfterClear s.m_nonces }
  match nonceLoop env s1.m_nonces fuel s1.rndPos with
  | none => none
  | some (randomNonce, pos) =>
    some (randomNonce, { s1 with m_nonces := s1.m_nonces ++ [randomNonce], rndPos := pos })

/-- The member `onData`. -/
def onData (s : NdnHelloWorldClient) (_interest : Interest) (data : Data) : NdnHelloWorldClient :=
  let s1 := { s with m_logger := s.m_logger.log ("Data Received Name=" ++ data.name.toUri) true false }
  let s2 := { s1 with m_nInterestsReceived := (s1.m_nInterestsReceived + 1) % UINT64_MOD }
  let receivedContent := data.content
  { s2 with m_logger :=
      s2.m_logger.log ("Received data: size=" ++ toString receivedContent.utf8ByteSize
        ++ " content=" ++ receivedContent) true false }

/-- The member `onNack`. -/
def onNack (s : NdnHelloWorldClient) (interest : Interest) (reason : String) : NdnHelloWorldClient :=
  let logLine := "Interest Nack\x27d Name=" ++ interest.name.toUri ++ ", NackReason=" ++ reason
  { s with m_logger := s.m_logger.log logLine true false }

/-- The member `onTimeout`. -/
def onTimeout (s : NdnHelloWorldClient) (interest : Interest) : NdnHelloWorldClient :=
  let logLine := "Interest Timed Out - Name=" ++ interest.name.toUri
  { s with m_logger := s.m_logger.log logLine true false }

/-- The test `m_nMaximumInterests && m_nInterestsSent >= *m_nMaximumInterests`. -/
def limitReached (s : NdnHelloWorldClient) : Bool :=
  match s.m_nMaximumInterests with
  | none => false
  | some n => decide (n ≤ s.m_nInterestsSent)

/-- The Interest built by `sendInterest` for sequence number `seq` and nonce
`nonce`. -/
def makeInterest (s : NdnHelloWorldClient) (seq nonce : Nat) : Interest :=
  { name := (Name.ofUri s.namePrefix).appendSequenceNumber seq
    canBePrefix := false
    mustBeFresh := false
    nonce := nonce
    lifetimeMs := 1000 }

/-- The `try` block of `sendInterest` and its `catch`: hand the Interest to
the face and log the dispatch, or log the exception the face threw. -/
def tryExpress (env : Env) (s : NdnHelloWorldClient) (interest : Interest) : NdnHelloWorldClient :=
  match env.expressInterest s.faceCalls.length with
  | none =>
    { s with faceCalls := s.faceCalls ++ [interest]
             expressed := s.expressed ++ [interest]
             m_logger := s.m_logger.log ("Sending Interest Name=" ++ interest.name.toUri) true false }
  | some what =>
    { s with faceCalls := s.faceCalls ++ [interest]
             m_logger := s.m_logger.log ("ERROR: " ++ what) true true }

/-- The member `sendInterest`, run as the handler of the timer; `none` when
the nonce loop did not end within the fuel. -/
def sendInterest (env : Env) (fuel : Nat) (s : NdnHelloWorldClient) : Option NdnHelloWorldClient :=
  if s.limitReached then some s
  else
    let seq := s.m_nInterestsSent
    let s1 := { s with m_nInterestsSent := (s.m_nInterestsSent + 1) % UINT64_MOD }
    match getNewNonce env fuel s1 with
    | none => none
    | some (nonce, s2) =>
      let interest := s2.makeInterest seq nonce
      let s3 := tryExpress env s2 interest
      some { s3 with timer := { expiry := s3.timer.expiry + s3.m_interestInterval, pending := true } }

/-- The member `stop`, the handler of the signal wait. -/
def stop (s : NdnHelloWorldClient) : NdnHelloWorldClient :=
  let s1 := if s.m_nInterestsSent ≠ s.m_nInterestsReceived then { s with m_hasError := true } else s
  { s1 with signalWaiting := false, faceShutdown := true, ioStopped := true }

/-- The completion of the pending timer wait: the wait is consumed and the
handler `sendInterest(timer)` runs. -/
def timerExpired (env : Env) (fuel : Nat) (s : NdnHelloWorldClient) : Option NdnHelloWorldClient :=
  if s.timer.pending then
    sendInterest env fuel { s with timer := { s.timer with pending := false } }
  else some s

/-- The handler the io context runs for one event; `none` when the nonce
loop inside it did not end within the fuel. An escaping exception is not a
handler: `processEvents` deals with it before this function is reached. -/
def handler (env : Env) (fuel : Nat) (s : NdnHelloWorldClient) :
    ClientEvent → Option NdnHelloWorldClient
  | .timerExpired => timerExpired env fuel s
  | .data i d => some (s.onData i d)
  | .nack i reason => some (s.onNack i reason)
  | .timeout i => some (s.onTimeout i)
  | .signal => some (if s.signalWaiting then s.stop else s)
  | .channelError _ => some s

/-- The call `m_face.processEvents()`: handlers run one at a time, in the
order of delivery, until the io context is stopped or an exception escapes. -/
def processEvents (env : Env) (fuel : Nat) :
    NdnHelloWorldClient → List ClientEvent → Loop NdnHelloWorldClient
  | s, [] => if s.ioStopped then .stopped s else .blocked s
  | s, e :: es =>
    if s.ioStopped then .stopped s
    else
      match e with
      | .channelError what => .threw what s
      | e =>
        match handler env fuel s e with
        | none => .hung
        | some s1 => processEvents env fuel s1 es

/-- First statement of `run`: the logger is started under a random word. -/
def started (env : Env) (s : NdnHelloWorldClient) : NdnHelloWorldClient :=
  { s with m_logger := s.m_logger.start (generateWord32 env s.rndPos),
           rndPos := s.rndPos + 1 }

/-- The statements of `run` between the zero test and `processEvents`: the
signal wait is started, the timer is constructed to expire one interval
later and its first wait is started. -/
def scheduled (s : NdnHelloWorldClient) : NdnHelloWorldClient :=
  let s1 := { s with signalWaiting := true }
  { s1 with timer := { expiry := s1.m_interestInterval, pending := true } }

/-- The member `run`. -/
def run (env : Env) (fuel : Nat) (s : NdnHelloWorldClient) (events : List ClientEvent) :
    Outcome NdnHelloWorldClient :=
  let s0 := s.started env
  if s0.m_nMaximumInterests == some 0 then
    .returned 0 { s0 with m_logger := s0.m_logger.log "Maximum Interests = 0, finishing..." true true }
  else
    match processEvents env fuel s0.scheduled events with
    | .stopped s3 => .returned (if s3.m_hasError then 1 else 0) s3
    | .threw what s3 =>
      .returned 1 { s3 with m_logger := s3.m_logger.log ("ERROR: " ++ what) true true,
                            ioStopped := true }
    | .blocked s3 => .blocked s3
    | .hung => .hung

/-- The members and collaborators that only `stop` and the setters change. -/
def SameControl (s t : NdnHelloWorldClient) : Prop :=
  t.ioStopped = s.ioStopped ∧ t.signalWaiting = s.signalWaiting ∧
  t.m_hasError = s.m_hasError ∧ t.m_nMaximumInterests = s.m_nMaximumInterests ∧
  t.namePrefix = s.namePrefix ∧ t.m_interestInterval = s.m_interestInterval

/-- The nonces returned by `n` consecutive calls of `getNewNonce`, with the
state after the last call. -/
def getNewNonces (env : Env) (fuel : Nat) :
    Nat → NdnHelloWorldClient → Option (List Nat × NdnHelloWorldClient)
  | 0, s => some ([], s)
  | n + 1, s =>
    match getNewNonce env fuel s with
    | none => none
    | some (r, s1) =>
      match getNewNonces env fuel n s1 with
      | none => none
      | some (rs, s2) => some (r :: rs, s2)

end NdnHelloWorldClient

/-! ## The two `main` functions -/

/-- The variables map after `po::store` and `po::notify` succeeded. -/
structure VariablesMap where
  /-- The test `vm.count("help") > 0`. -/
  help : Bool
  /-- The value of `--count` as `int64_t`, when the option was given. -/
  count : Option Int
  /-- The value of `--interval` (client only; the option has a default value,
  so the parser stores one whenever parsing succeeds). -/
  interval : Option Int
  /-- The variable bound to the positional option `name-prefix`; it keeps its
  initial empty value when no positional argument was given. -/
  namePrefix : String
  /-- The value of the switch `--quiet` (server only). -/
  quiet : Bool

/-- What `main` does before calling `run()`: return an exit code, or go on
with the configured object. -/
inductive Setup (σ : Type) where
  | exit (code : Int)
  | start (app : σ)

/-- The handling of `--interval` in the client `main`. -/
def clientIntervalStep (vm : VariablesMap) (client : NdnHelloWorldClient) :
    Setup NdnHelloWorldClient :=
  match vm.interval with
  | some interval =>
    if interval ≤ 0 then .exit 2
    else .start (client.setInterestInterval interval)
  | none => .start client

/-- The client `main` up to (excluding) `return client.run()`. The argument
is the outcome of parsing: `.error` when `po::store` / `po::notify` threw. -/
def clientSetup : Except String VariablesMap → Setup NdnHelloWorldClient
  | .error _ => .exit 2
  | .ok vm =>
    if vm.help then .exit 0
    else
      let client := NdnHelloWorldClient.new vm.namePrefix
      match vm.count with
      | some count =>
        if count < 0 then .exit 2
        else clientIntervalStep vm (client.setMaximumInterests (count.toNat % UINT64_MOD))
      | none => clientIntervalStep vm client

/-- The handling of `--quiet` in the server `main`. -/
def serverQuietStep (vm : VariablesMap) (server : NdnHelloWorldServer) :
    Setup NdnHelloWorldServer :=
  if vm.quiet then .start server.setQuietLogging else .start server

/-- The server `main` up to (excluding) `return server.run()`. -/
def serverSetup (freshnessEnabled : Bool) :
    Except String VariablesMap → Setup NdnHelloWorldServer
  | .error _ => .exit 2
  | .ok vm =>
    if vm.help then .exit 0
    else
      let server := NdnHelloWorldServer.new vm.namePrefix freshnessEnabled
      match vm.count with
      | some count =>
        if count < 0 then .exit 2
        else serverQuietStep vm (server.setMaximumInterests (count.toNat % UINT64_MOD))
      | none => serverQuietStep vm server

/-- The exit code of the client `main`, when it returns. -/
def clientMain (env : Env) (fuel : Nat) (parsed : Except String VariablesMap)
    (events : List ClientEvent) : Option Int :=
  match clientSetup parsed with
  | .exit code => some code
  | .start client => (client.run env fuel events).exitCode

/-- The exit code of the server `main`, when it returns. -/
def serverMain (env : Env) (freshnessEnabled : Bool) (parsed : Except String VariablesMap)
    (events : List ServerEvent) : Option Int :=
  match serverSetup freshnessEnabled parsed with
  | .exit code => some code
  | .start server => (server.run env events).exitCode

/-! ## Environments used in the concrete instances -/

/-- A generator that counts upwards and a face that accepts every Interest. -/
def reliableEnv : Env := { rnd := fun i => i, expressInterest := fun _ => none }

/-- A generator that counts upwards and a face whose `expressInterest`
always throws. -/
def failingEnv : Env :=
  { rnd := fun i => i, expressInterest := fun _ => some "transport failure" }

/-- A generator that yields every word twice in a row and a face that
accepts every Interest. -/
def repeatingEnv : Env := { rnd := fun i => i / 2, expressInterest := fun _ => none }

/-- A generator that counts upwards and a face whose first call of
`expressInterest` throws and whose later calls succeed. -/
def flakyEnv : Env :=
  { rnd := fun i => i
    expressInterest := fun i => if i = 0 then some "transport failure" else none }

/-- A generator stuck on one word. -/
def stuckEnv : Env := { rnd := fun _ => 7, expressInterest := fun _ => none }

/-- An Interest as the client builds them, for use as a request on the server. -/
def sampleInterest (seq : Nat) : Interest :=
  { name := (Name.ofUri "/hello").appendSequenceNumber seq
    canBePrefix := false
    mustBeFresh := false
    nonce := seq
    lifetimeMs := 1000 }

/-- The command line `--count=-1 /hello`. -/
def negativeCountArgs : VariablesMap :=
  { help := false, count := some (-1), interval := some 1000, namePrefix := "/hello",
    quiet := false }

/-- The command line without any argument (the interval has its default). -/
def noPrefixArgs : VariablesMap :=
  { help := false, count := none, interval := some 1000, namePrefix := "", quiet := false }

/-- The command line `--help --count=-1 /hello`. -/
def helpArgs : VariablesMap :=
  { help := true, count := some (-1), interval := some 1000, namePrefix := "/hello",
    quiet := false }

/-- A generator is productive when, from every position and for every pool
of fewer than 1000 words, it eventually yields a word outside the pool. -/
def Productive (env : Env) : Prop :=
  ∀ (pool : List Nat) (pos : Nat), pool.length < 1000 →
    ∃ j, generateWord32 env (pos + j) ∉ pool

/-! ## Properties of the server -/

namespace NdnHelloWorldServer

theorem onInterest_served (s : NdnHelloWorldServer) (i : Interest) (N : Nat)
    (hN : N < UINT64_MOD) (hmax : s.m_nMaximumInterests = some N)
    (hlt : s.m_nInterestsReceived < N) :
    (s.onInterest i).m_nInterestsReceived = s.m_nInterestsReceived + 1 ∧
    (s.onInterest i).put = s.put ++ [s.makeData i] ∧
    (s.onInterest i).m_nMaximumInterests = some N ∧
    (s.onInterest i).freshnessEnabled = s.freshnessEnabled := by
  have hmod : (s.m_nInterestsReceived + 1) % UINT64_MOD = s.m_nInterestsReceived + 1 :=
    Nat.mod_eq_of_lt (by omega)
  simp only [onInterest, mayServe, quotaReached, hmax, hlt, decide_True, if_true, hmod]
  split_ifs <;> simp [hmax]

theorem onInterest_refused (s : NdnHelloWorldServer) (i : Interest) (N : Nat)
    (hmax : s.m_nMaximumInterests = some N) (hge : N ≤ s.m_nInterestsReceived) :
    (s.onInterest i).m_nInterestsReceived = s.m_nInterestsReceived ∧
    (s.onInterest i).put = s.put ∧
    (s.onInterest i).m_nMaximumInterests = some N ∧
    (s.onInterest i).freshnessEnabled = s.freshnessEnabled := by
  have hnlt : ¬ s.m_nInterestsReceived < N := by omega
  simp [onInterest, mayServe, quotaReached, hmax, hnlt, hge]

theorem onInterests_from (N : Nat) (hN : N < UINT64_MOD) (reqs : List Interest) :
    ∀ s : NdnHelloWorldServer, s.m_nMaximumInterests = some N → s.m_nInterestsReceived ≤ N →
      (s.onInterests reqs).m_nInterestsReceived = min (s.m_nInterestsReceived + reqs.length) N ∧
      (s.onInterests reqs).put =
        s.put ++ (reqs.take (N - s.m_nInterestsReceived)).map s.makeData := by
  induction reqs with
  | nil =>
    intro s _ hle
    simp [onInterests, Nat.min_eq_left hle]
  | cons i rest ih =>
    intro s hmax hle
    have hfold : s.onInterests (i :: rest) = (s.onInterest i).onInterests rest := rfl
    rw [hfold]
    rcases Nat.lt_or_ge s.m_nInterestsReceived N with hlt | hge
    · obtain ⟨hr, hp, hm, hf⟩ := onInterest_served s i N hN hmax hlt
      obtain ⟨ihr, ihp⟩ := ih (s.onInterest i) hm (by omega)
      have hmk : (s.onInterest i).makeData = s.makeData := by
        funext j; simp [makeData, hf]
      have hsub : N - s.m_nInterestsReceived = (N - (s.m_nInterestsReceived + 1)) + 1 := by omega
      refine ⟨?_, ?_⟩
      · rw [ihr, hr, List.length_cons]; congr 1; omega
      · rw [ihp, hr, hp, hmk, hsub, List.take_succ_cons, List.map_cons, List.append_assoc]
        rfl
    · obtain ⟨hr, hp, hm, hf⟩ := onInterest_refused s i N hmax hge
      obtain ⟨ihr, ihp⟩ := ih (s.onInterest i) hm (by omega)
      have hmk : (s.onInterest i).makeData = s.makeData := by
        funext j; simp [makeData, hf]
      have hz : N - s.m_nInterestsReceived = 0 := by omega
      refine ⟨?_, ?_⟩
      · rw [ihr, hr, List.length_cons]; omega
      · rw [ihp, hr, hp, hmk, hz]; simp

/-- C1 (bounded responder quota). For a configured maximum `N` and any finite
sequence of requests handled by `onInterest` from served-count 0: after the
first `k` requests, for every `k`, the served-count is `min k N` (so it never
exceeds `N`) and the responses transmitted are exactly those to the first
`min k N` requests; a request handled when the served-count equals `N`
transmits nothing and leaves the served-count unchanged. -/
theorem onInterest_quota (N : Nat) (hN : N < UINT64_MOD) (s : NdnHelloWorldServer)
    (hmax : s.m_nMaximumInterests = some N) (h0 : s.m_nInterestsReceived = 0)
    (reqs : List Interest) :
    (∀ k, k ≤ reqs.length →
      (s.onInterests (reqs.take k)).m_nInterestsReceived = min k N ∧
      (s.onInterests (reqs.take k)).m_nInterestsReceived ≤ N ∧
      (s.onInterests (reqs.take k)).put = s.put ++ (reqs.take (min k N)).map s.makeData ∧
      ((s.onInterests (reqs.take k)).put.length - s.put.length = min k N)) ∧
    (∀ (t : NdnHelloWorldServer) (i : Interest),
      t.m_nMaximumInterests = some N → t.m_nInterestsReceived = N →
      (t.onInterest i).put = t.put ∧
      (t.onInterest i).m_nInterestsReceived = t.m_nInterestsReceived) := by
  refine ⟨?_, ?_⟩
  · intro k hk
    obtain ⟨hr, hp⟩ := onInterests_from N hN (reqs.take k) s hmax (by omega)
    have hlen : (reqs.take k).length = k := by simp [hk]
    have htake : (reqs.take k).take N = reqs.take (min k N) := by
      rw [List.take_take, Nat.min_comm]
    rw [h0, Nat.zero_add, hlen] at hr
    rw [h0, Nat.sub_zero, htake] at hp
    refine ⟨hr, ?_, hp, ?_⟩
    · rw [hr]; exact Nat.min_le_right k N
    · rw [hp]; simp; omega
  · intro t i hmax' hr
    obtain ⟨h1, h2, _, _⟩ := onInterest_refused t i N hmax' (by omega)
    exact ⟨h2, h1⟩

/-- Instance of C1: three requests against a quota of two. -/
theorem onInterest_quota_witness :
    (((new "/hello" true).setMaximumInterests 2).onInterests
        [sampleInterest 0, sampleInterest 1, sampleInterest 2]).m_nInterestsReceived = 2 ∧
    (((new "/hello" true).setMaximumInterests 2).onInterests
        [sampleInterest 0, sampleInterest 1, sampleInterest 2]).put =
      [((new "/hello" true).setMaximumInterests 2).makeData (sampleInterest 0),
       ((new "/hello" true).setMaximumInterests 2).makeData (sampleInterest 1)] := by
  have h := (onInterest_quota 2 (by decide) ((new "/hello" true).setMaximumInterests 2)
    rfl rfl [sampleInterest 0, sampleInterest 1, sampleInterest 2]).1 3 (by decide)
  exact ⟨h.1, h.2.2.1⟩

theorem server_processEvents_stopped (s : NdnHelloWorldServer) (hs : s.ioStopped = true)
    (events : List ServerEvent) : processEvents s events = .stopped s := by
  cases events <;> simp [processEvents, hs]

theorem server_processEvents_deliveries (pre : List ServerEvent)
    (hpre : ∀ e ∈ pre, e.isDelivery = true) :
    ∀ s : NdnHelloWorldServer, s.ioStopped = false →
      ∃ t, processEvents s pre = .blocked t ∧ t.ioStopped = false ∧
        t.signalWaiting = s.signalWaiting ∧ t.m_hasError = s.m_hasError ∧
        t.m_nMaximumInterests = s.m_nMaximumInterests ∧
        ∀ rest, processEvents s (pre ++ rest) = processEvents t rest := by
  induction pre with
  | nil =>
    intro s hs
    exact ⟨s, by simp [processEvents, hs], hs, rfl, rfl, rfl, fun _ => rfl⟩
  | cons e es ih =>
    intro s hs
    have hes : ∀ e ∈ es, e.isDelivery = true := fun x hx => hpre x (List.mem_cons_of_mem _ hx)
    have he : e.isDelivery = true := hpre e (List.mem_cons_self _ _)
    cases e with
    | interest i =>
      have key : ∀ u : NdnHelloWorldServer,
          u = (if s.filterRegistered then s.onInterest i else s) →
          u.ioStopped = false ∧ u.signalWaiting = s.signalWaiting ∧
          u.m_hasError = s.m_hasError ∧ u.m_nMaximumInterests = s.m_nMaximumInterests := by
        intro u hu
        subst hu
        by_cases hf : s.filterRegistered = true
        · simp only [hf, if_true, onInterest]
          split_ifs <;> simp [hs]
        · simp [hf, hs]
      obtain ⟨h1, h2, h3, h4⟩ := key _ rfl
      obtain ⟨t, ht, ht1, ht2, ht3, ht4, ht5⟩ := ih hes _ h1
      refine ⟨t, ?_, ht1, ht2.trans h2, ht3.trans h3, ht4.trans h4, ?_⟩
      · simpa [processEvents, hs] using ht
      · intro rest
        simpa [processEvents, hs] using ht5 rest
    | registerFailed reason =>
      obtain ⟨t, ht, ht1, ht2, ht3, ht4, ht5⟩ := ih hes (s.onRegisterFailed reason) hs
      refine ⟨t, ?_, ht1, ht2, ht3, ht4, ?_⟩
      · simpa [processEvents, hs] using ht
      · intro rest
        simpa [processEvents, hs] using ht5 rest
    | signal => simp [ServerEvent.isDelivery] at he
    | channelError what => simp [ServerEvent.isDelivery] at he

theorem server_run_signal (env : Env) (s : NdnHelloWorldServer) (pre post : List ServerEvent)
    (hzero : s.m_nMaximumInterests ≠ some 0) (herr : s.m_hasError = false)
    (hio : s.ioStopped = false) (hpre : ∀ e ∈ pre, e.isDelivery = true) :
    ∃ t, processEvents (s.started env).listening pre = .blocked t ∧
      t.m_nMaximumInterests = s.m_nMaximumInterests ∧
      s.run env (pre ++ .signal :: post) =
        .returned (if t.quotaUnmet then 1 else 0) t.signalHandler := by
  obtain ⟨t, ht, ht1, ht2, ht3, ht4, ht5⟩ :=
    server_processEvents_deliveries pre hpre (s.started env).listening (by simpa [started, listening] using hio)
  refine ⟨t, ht, by simpa [started, listening] using ht4, ?_⟩
  have hw : t.signalWaiting = true := by simpa [started, listening] using ht2
  have he : t.m_hasError = false := by simpa [started, listening, herr] using ht3
  have hstop : t.signalHandler.ioStopped = true := by
    simp [signalHandler, stop]
  have hloop : processEvents (s.started env).listening (pre ++ .signal :: post) =
      .stopped t.signalHandler := by
    rw [ht5]
    simp only [processEvents, ht1, hw, if_true, Bool.false_eq_true, if_false]
    exact server_processEvents_stopped _ hstop post
  have hz : ((s.started env).m_nMaximumInterests == some 0) = false := by
    simpa [started] using hzero
  have hflag : t.signalHandler.m_hasError = t.quotaUnmet := by
    simp only [signalHandler, stop]
    split_ifs with hq <;> simp [hq, he]
  simp only [run, hz, hloop, hflag]
  simp

/-- C5 (server exit status). Let the signal handler run after any sequence of
request deliveries and registration failures, with no exception escaping the
event loop, on a server whose maximum is not 0; `run()` is then still
waiting, with the server in some state `t`. When the handler runs at that
moment, `run()` returns, and it returns 1 exactly when a maximum `N` is
configured and the served-count of `t` is below `N`; with no maximum, or with
served-count at least `N`, it returns 0. -/
theorem server_exit_status (env : Env) (s : NdnHelloWorldServer)
    (pre post : List ServerEvent)
    (hzero : s.m_nMaximumInterests ≠ some 0) (herr : s.m_hasError = false)
    (hio : s.ioStopped = false) (hpre : ∀ e ∈ pre, e.isDelivery = true) :
    ∃ t, s.run env pre = .blocked t ∧
      ((s.run env (pre ++ .signal :: post)).exitCode = some 1 ↔
        ∃ N, s.m_nMaximumInterests = some N ∧ t.m_nInterestsReceived < N) ∧
      (s.m_nMaximumInterests = none →
        (s.run env (pre ++ .signal :: post)).exitCode = some 0) ∧
      (∀ N, s.m_nMaximumInterests = some N → N ≤ t.m_nInterestsReceived →
        (s.run env (pre ++ .signal :: post)).exitCode = some 0) := by
  obtain ⟨t, ht, hmax, hrun⟩ := server_run_signal env s pre post hzero herr hio hpre
  have hz : ((s.started env).m_nMaximumInterests == some 0) = false := by
    simpa [started] using hzero
  have hblocked : s.run env pre = .blocked t := by
    simp only [run, hz, ht]
    simp
  refine ⟨t, hblocked, ?_, ?_, ?_⟩
  · rw [hrun]
    cases hm : s.m_nMaximumInterests with
    | none => simp [Outcome.exitCode, quotaUnmet, hmax, hm]
    | some N =>
      by_cases hlt : t.m_nInterestsReceived < N <;>
        simp [Outcome.exitCode, quotaUnmet, hmax, hm, hlt]
  · intro hm
    rw [hrun]
    simp [Outcome.exitCode, quotaUnmet, hmax, hm]
  · intro N hm hge
    have hlt : ¬ t.m_nInterestsReceived < N := by omega
    rw [hrun]
    simp [Outcome.exitCode, quotaUnmet, hmax, hm, hlt]

/-- Instance of C5: a quota of two, one request served, then the signal. -/
theorem server_exit_status_witness :
    (((new "/hello" true).setMaximumInterests 2).run reliableEnv
      ([.interest (sampleInterest 0)] ++ .signal :: [])).exitCode = some 1 := by
  obtain ⟨t, ht, h1, _, _⟩ := server_exit_status reliableEnv
    ((new "/hello" true).setMaximumInterests 2) [.interest (sampleInterest 0)] []
    (by decide) rfl rfl (by simp [ServerEvent.isDelivery])
  refine h1.mpr ⟨2, rfl, ?_⟩
  have h : ((new "/hello" true).setMaximumInterests 2).run reliableEnv
      [.interest (sampleInterest 0)] =
      .blocked ((((new "/hello" true).setMaximumInterests 2).started reliableEnv).listening.onInterest
        (sampleInterest 0)) := rfl
  rw [h] at ht
  injection ht with ht
  rw [← ht]
  decide

end NdnHelloWorldServer

/-! ## Properties of the nonce pool -/

namespace NdnHelloWorldClient

theorem nonceLoop_some (env : Env) (pool : List Nat) :
    ∀ (fuel pos r pos' : Nat), nonceLoop env pool fuel pos = some (r, pos') →
      r ∉ pool ∧ r < WORD32_MOD ∧ pos < pos' ∧ r = generateWord32 env (pos' - 1) := by
  intro fuel
  induction fuel with
  | zero => intro pos r pos' h; simp [nonceLoop] at h
  | succ f ih =>
    intro pos r pos' h
    by_cases hm : generateWord32 env pos ∈ pool
    · simp only [nonceLoop, hm, if_true] at h
      obtain ⟨h1, h2, h3, h4⟩ := ih (pos + 1) r pos' h
      exact ⟨h1, h2, by omega, h4⟩
    · simp only [nonceLoop, hm, if_false, Option.some.injEq, Prod.mk.injEq] at h
      obtain ⟨hr, hp⟩ := h
      subst hr; subst hp
      refine ⟨hm, ?_, by omega, by simp⟩
      exact Nat.mod_lt _ (by decide)

theorem nonceLoop_mono (env : Env) (pool : List Nat) :
    ∀ (fuel fuel' pos : Nat) (x : Nat × Nat), fuel ≤ fuel' →
      nonceLoop env pool fuel pos = some x → nonceLoop env pool fuel' pos = some x := by
  intro fuel
  induction fuel with
  | zero => intro fuel' pos x _ h; simp [nonceLoop] at h
  | succ f ih =>
    intro fuel' pos x hle h
    obtain ⟨g, rfl⟩ : ∃ g, fuel' = g + 1 := ⟨fuel' - 1, by omega⟩
    by_cases hm : generateWord32 env pos ∈ pool
    · simp only [nonceLoop, hm, if_true] at h ⊢
      exact ih g (pos + 1) x (by omega) h
    · simp only [nonceLoop, hm, if_false] at h ⊢
      exact h

theorem nonceLoop_total (env : Env) (pool : List Nat) :
    ∀ (j pos : Nat), generateWord32 env (pos + j) ∉ pool →
      ∃ x, nonceLoop env pool (j + 1) pos = some x := by
  intro j
  induction j with
  | zero =>
    intro pos h
    by_cases hm : generateWord32 env pos ∈ pool
    · exact absurd hm (by simpa using h)
    · exact ⟨(generateWord32 env pos, pos + 1), by simp [nonceLoop, hm]⟩
  | succ j ih =>
    intro pos h
    by_cases hm : generateWord32 env pos ∈ pool
    · obtain ⟨x, hx⟩ := ih (pos + 1) (by simpa [Nat.add_assoc, Nat.add_comm 1 j] using h)
      exact ⟨x, by simp only [nonceLoop, hm, if_true]; exact hx⟩
    · exact ⟨(generateWord32 env pos, pos + 1), by simp [nonceLoop, hm]⟩

theorem poolAfterClear_length (pool : List Nat) : (poolAfterClear pool).length < 1000 := by
  unfold poolAfterClear
  split_ifs with h
  · simp
  · omega

theorem poolAfterClear_of_lt (pool : List Nat) (h : pool.length < 1000) :
    poolAfterClear pool = pool := by
  unfold poolAfterClear
  rw [if_neg (by omega)]

/-- What one returning call of `getNewNonce` does to the client. -/
theorem getNewNonce_some (env : Env) (fuel : Nat) (s : NdnHelloWorldClient) (r : Nat)
    (s' : NdnHelloWorldClient) (h : getNewNonce env fuel s = some (r, s')) :
    r ∉ poolAfterClear s.m_nonces ∧ r < WORD32_MOD ∧
    ∃ pos, s' = { s with m_nonces := poolAfterClear s.m_nonces ++ [r], rndPos := pos } := by
  unfold getNewNonce at h
  cases hl : nonceLoop env (poolAfterClear s.m_nonces) fuel s.rndPos with
  | none => simp [hl] at h
  | some x =>
    obtain ⟨r0, pos⟩ := x
    simp only [hl, Option.some.injEq, Prod.mk.injEq] at h
    obtain ⟨hr, hs⟩ := h
    subst hr
    obtain ⟨h1, h2, _, _⟩ := nonceLoop_some env _ fuel s.rndPos r0 pos hl
    exact ⟨h1, h2, pos, hs.symm⟩

theorem getNewNonce_mono (env : Env) (fuel fuel' : Nat) (hle : fuel ≤ fuel')
    (s : NdnHelloWorldClient) (x : Nat × NdnHelloWorldClient)
    (h : getNewNonce env fuel s = some x) : getNewNonce env fuel' s = some x := by
  simp only [getNewNonce] at h ⊢
  cases hl : nonceLoop env (poolAfterClear s.m_nonces) fuel s.rndPos with
  | none => simp [hl] at h
  | some y =>
    rw [nonceLoop_mono env _ fuel fuel' s.rndPos y hle hl]
    rw [hl] at h
    exact h

theorem getNewNonce_total (env : Env) (hp : Productive env) (s : NdnHelloWorldClient) :
    ∃ fuel x, getNewNonce env fuel s = some x := by
  obtain ⟨j, hj⟩ := hp (poolAfterClear s.m_nonces) s.rndPos (poolAfterClear_length _)
  obtain ⟨⟨r, pos⟩, hx⟩ := nonceLoop_total env _ j s.rndPos hj
  exact ⟨j + 1, (r, { s with m_nonces := poolAfterClear s.m_nonces ++ [r], rndPos := pos }),
    by simp only [getNewNonce, hx]⟩

theorem getNewNonces_mono (env : Env) (fuel fuel' : Nat) (hle : fuel ≤ fuel') :
    ∀ (n : Nat) (s : NdnHelloWorldClient) (x : List Nat × NdnHelloWorldClient),
      getNewNonces env fuel n s = some x → getNewNonces env fuel' n s = some x := by
  intro n
  induction n with
  | zero => intro s x h; simpa [getNewNonces] using h
  | succ n ih =>
    intro s x h
    unfold getNewNonces at h ⊢
    cases h1 : getNewNonce env fuel s with
    | none => simp [h1] at h
    | some y =>
      obtain ⟨r, s1⟩ := y
      rw [getNewNonce_mono env fuel fuel' hle s _ h1]
      simp only [h1] at h ⊢
      cases h2 : getNewNonces env fuel n s1 with
      | none => simp [h2] at h
      | some z =>
        rw [ih s1 z h2]
        rw [h2] at h
        exact h

theorem getNewNonces_total (env : Env) (hp : Productive env) :
    ∀ (n : Nat) (s : NdnHelloWorldClient), ∃ fuel x, getNewNonces env fuel n s = some x := by
  intro n
  induction n with
  | zero => intro s; exact ⟨0, _, rfl⟩
  | succ n ih =>
    intro s
    obtain ⟨f1, ⟨r, s1⟩, h1⟩ := getNewNonce_total env hp s
    obtain ⟨f2, ⟨rs, s2⟩, h2⟩ := ih s1
    refine ⟨max f1 f2, (r :: rs, s2), ?_⟩
    unfold getNewNonces
    rw [getNewNonce_mono env f1 _ (Nat.le_max_left _ _) s _ h1]
    simp only
    rw [getNewNonces_mono env f2 _ (Nat.le_max_right _ _) n s1 _ h2]

theorem getNewNonces_pool (env : Env) (fuel : Nat) :
    ∀ (n : Nat) (s : NdnHelloWorldClient) (rs : List Nat) (s' : NdnHelloWorldClient),
      s.m_nonces.Nodup → s.m_nonces.length + n ≤ 1000 →
      getNewNonces env fuel n s = some (rs, s') →
      s'.m_nonces = s.m_nonces ++ rs ∧ (s.m_nonces ++ rs).Nodup ∧ rs.length = n ∧
      ∀ r ∈ rs, r < WORD32_MOD := by
  intro n
  induction n with
  | zero =>
    intro s rs s' hnd _ h
    simp only [getNewNonces, Option.some.injEq, Prod.mk.injEq] at h
    obtain ⟨h1, h2⟩ := h
    subst h1; subst h2
    simp [hnd]
  | succ n ih =>
    intro s rs s' hnd hlen h
    unfold getNewNonces at h
    cases h1 : getNewNonce env fuel s with
    | none => simp [h1] at h
    | some y =>
      obtain ⟨r, s1⟩ := y
      simp only [h1] at h
      cases h2 : getNewNonces env fuel n s1 with
      | none => simp [h2] at h
      | some z =>
        obtain ⟨rs1, s2⟩ := z
        simp only [h2, Option.some.injEq, Prod.mk.injEq] at h
        obtain ⟨hrs, hs2⟩ := h
        subst hrs; subst hs2
        obtain ⟨hnot, hlt, pos, hs1⟩ := getNewNonce_some env fuel s r s1 h1
        rw [poolAfterClear_of_lt _ (by omega)] at hnot hs1
        have hp1 : s1.m_nonces = s.m_nonces ++ [r] := by rw [hs1]
        have hnd1 : s1.m_nonces.Nodup := by
          rw [hp1]
          exact List.Nodup.append hnd (List.nodup_singleton r) (by simpa using hnot)
        obtain ⟨i1, i2, i3, i4⟩ := ih s1 rs1 s2 hnd1 (by rw [hp1]; simp; omega) h2
        rw [hp1, List.append_assoc] at i1 i2
        refine ⟨by simpa using i1, by simpa using i2, by simp [i3], ?_⟩
        intro x hx
        rcases List.mem_cons.mp hx with hx | hx
        · rw [hx]; exact hlt
        · exact i4 x hx

/-- C3 (nonce pool distinctness). From an empty pool, for every random
source and every `n ≤ 1000`: whenever `n` consecutive calls of `getNewNonce`
return, the 32-bit values returned are pairwise distinct and the pool holds
exactly these values, in order (it was not cleared); every returning call
returns a value that is absent from the pool it is inserted into; and when
the source keeps yielding words outside any pool of fewer than 1000 words,
all `n` calls do return. -/
theorem getNewNonce_distinct (env : Env) (n : Nat) (hn : n ≤ 1000)
    (s : NdnHelloWorldClient) (hs : s.m_nonces = []) :
    (∀ fuel rs s', getNewNonces env fuel n s = some (rs, s') →
      rs.Nodup ∧ rs.length = n ∧ s'.m_nonces = rs ∧ ∀ r ∈ rs, r < WORD32_MOD) ∧
    (∀ fuel (t : NdnHelloWorldClient) r t', getNewNonce env fuel t = some (r, t') →
      r ∉ poolAfterClear t.m_nonces ∧ t'.m_nonces = poolAfterClear t.m_nonces ++ [r] ∧
      (t.m_nonces.length < 1000 → r ∉ t.m_nonces ∧ t'.m_nonces = t.m_nonces ++ [r])) ∧
    (Productive env → ∃ fuel rs s', getNewNonces env fuel n s = some (rs, s')) := by
  refine ⟨?_, ?_, ?_⟩
  · intro fuel rs s' h
    obtain ⟨h1, h2, h3, h4⟩ :=
      getNewNonces_pool env fuel n s rs s' (by simp [hs]) (by simp [hs]; exact hn) h
    rw [hs, List.nil_append] at h1 h2
    exact ⟨h2, h3, h1, h4⟩
  · intro fuel t r t' h
    obtain ⟨hnot, _, pos, ht'⟩ := getNewNonce_some env fuel t r t' h
    have hp : t'.m_nonces = poolAfterClear t.m_nonces ++ [r] := by rw [ht']
    refine ⟨hnot, hp, ?_⟩
    intro hlt
    rw [poolAfterClear_of_lt _ hlt] at hnot hp
    exact ⟨hnot, hp⟩
  · intro hp
    obtain ⟨fuel, ⟨rs, s'⟩, h⟩ := getNewNonces_total env hp n s
    exact ⟨fuel, rs, s', h⟩

theorem generateWord32_injOn (env : Env) (henv : ∀ i, env.rnd i = i) (pos a b : Nat)
    (ha : a < 1000) (hb : b < 1000)
    (h : generateWord32 env (pos + a) = generateWord32 env (pos + b)) : a = b := by
  simp only [generateWord32, WORD32_MOD, henv] at h
  norm_num at h
  omega

theorem productive_of_counting (env : Env) (henv : ∀ i, env.rnd i = i) : Productive env := by
  intro pool pos hlen
  by_contra hall
  push_neg at hall
  have hsub : (List.range 1000).map (fun j => generateWord32 env (pos + j)) ⊆ pool := by
    intro x hx
    obtain ⟨j, _, rfl⟩ := List.mem_map.mp hx
    exact hall j
  have hnd : ((List.range 1000).map (fun j => generateWord32 env (pos + j))).Nodup := by
    refine List.Nodup.map_on ?_ (List.nodup_range 1000)
    intro a ha b hb hab
    exact generateWord32_injOn env henv pos a b (List.mem_range.mp ha) (List.mem_range.mp hb) hab
  have hle := (List.subperm_of_subset hnd hsub).length_le
  simp at hle
  omega

/-- Instance of C3: three calls on a generator that yields every word twice,
so that the second and third call have to draw again. -/
theorem getNewNonce_distinct_witness :
    (getNewNonces repeatingEnv 2 3 (new "/hello")).map Prod.fst = some [0, 1, 2] ∧
    (getNewNonces repeatingEnv 1 3 (new "/hello")).map Prod.fst = none ∧
    ([0, 1, 2] : List Nat).Nodup := by
  refine ⟨by decide, by decide, ?_⟩
  have h : getNewNonces repeatingEnv 2 3 (new "/hello") =
      some ([0, 1, 2], { new "/hello" with m_nonces := [0, 1, 2], rndPos := 5 }) := rfl
  exact ((getNewNonce_distinct repeatingEnv 3 (by decide) (new "/hello") rfl).1 2 _ _ h).1

/-! ## Single steps of the client -/

theorem sendInterest_of_limit (env : Env) (fuel : Nat) (s : NdnHelloWorldClient)
    (h : s.limitReached = true) : sendInterest env fuel s = some s := by
  simp [sendInterest, h]

/-- The shape of the state after a tick that passes the limit check. -/
theorem sendInterest_some (env : Env) (fuel : Nat) (s s' : NdnHelloWorldClient)
    (hl : s.limitReached = false) (h : sendInterest env fuel s = some s') :
    ∃ nonce pos, nonce ∉ poolAfterClear s.m_nonces ∧
      s' = { tryExpress env
              { s with m_nInterestsSent := (s.m_nInterestsSent + 1) % UINT64_MOD
                       m_nonces := poolAfterClear s.m_nonces ++ [nonce]
                       rndPos := pos }
              (s.makeInterest s.m_nInterestsSent nonce) with
             timer := { expiry := s.timer.expiry + s.m_interestInterval, pending := true } } := by
  simp only [sendInterest, hl, Bool.false_eq_true, if_false] at h
  cases hg : getNewNonce env fuel
      { s with m_nInterestsSent := (s.m_nInterestsSent + 1) % UINT64_MOD } with
  | none => simp [hg] at h
  | some x =>
    obtain ⟨nonce, s2⟩ := x
    simp only [hg, Option.some.injEq] at h
    obtain ⟨hnot, _, pos, hs2⟩ := getNewNonce_some env fuel _ nonce s2 hg
    refine ⟨nonce, pos, hnot, ?_⟩
    subst hs2
    rw [← h]
    cases he : env.expressInterest s.faceCalls.length <;> simp [tryExpress, he, makeInterest]

/-- The fields of the state after a tick that passes the limit check. -/
theorem sendInterest_fields (env : Env) (fuel : Nat) (s s' : NdnHelloWorldClient)
    (hl : s.limitReached = false) (h : sendInterest env fuel s = some s') :
    s'.m_nInterestsSent = (s.m_nInterestsSent + 1) % UINT64_MOD ∧
    s'.m_nInterestsReceived = s.m_nInterestsReceived ∧
    s'.m_hasError = s.m_hasError ∧
    s'.m_nMaximumInterests = s.m_nMaximumInterests ∧
    s'.namePrefix = s.namePrefix ∧
    s'.m_interestInterval = s.m_interestInterval ∧
    s'.ioStopped = s.ioStopped ∧
    s'.signalWaiting = s.signalWaiting ∧
    s'.timer = { expiry := s.timer.expiry + s.m_interestInterval, pending := true } ∧
    ∃ interest : Interest,
      interest.name = (Name.ofUri s.namePrefix).appendSequenceNumber s.m_nInterestsSent ∧
      s'.faceCalls = s.faceCalls ++ [interest] ∧
      (env.expressInterest s.faceCalls.length = none → s'.expressed = s.expressed ++ [interest]) ∧
      (∀ what, env.expressInterest s.faceCalls.length = some what →
        s'.expressed = s.expressed ∧
        s'.m_logger = s.m_logger.log ("ERROR: " ++ what) true true) := by
  obtain ⟨nonce, pos, _, hs'⟩ := sendInterest_some env fuel s s' hl h
  subst hs'
  refine ⟨?_, ?_, ?_, ?_, ?_, ?_, ?_, ?_, ?_, s.makeInterest s.m_nInterestsSent nonce, rfl,
    ?_, ?_, ?_⟩ <;>
  cases he : env.expressInterest s.faceCalls.length <;> simp [tryExpress, he]

theorem sendInterest_mono (env : Env) (fuel fuel' : Nat) (hle : fuel ≤ fuel')
    (s s' : NdnHelloWorldClient) (h : sendInterest env fuel s = some s') :
    sendInterest env fuel' s = some s' := by
  by_cases hl : s.limitReached = true
  · simpa [sendInterest, hl] using h
  · simp only [sendInterest, hl, if_false] at h ⊢
    cases hg : getNewNonce env fuel
        { s with m_nInterestsSent := (s.m_nInterestsSent + 1) % UINT64_MOD } with
    | none => simp [hg] at h
    | some x =>
      rw [getNewNonce_mono env fuel fuel' hle _ x hg]
      rw [hg] at h
      exact h

theorem sendInterest_total (env : Env) (hp : Productive env) (s : NdnHelloWorldClient) :
    ∃ fuel s', sendInterest env fuel s = some s' := by
  by_cases hl : s.limitReached = true
  · exact ⟨0, s, sendInterest_of_limit env 0 s hl⟩
  · obtain ⟨fuel, ⟨nonce, s2⟩, hg⟩ := getNewNonce_total env hp
      { s with m_nInterestsSent := (s.m_nInterestsSent + 1) % UINT64_MOD }
    exact ⟨fuel, _, by simp only [sendInterest, hl, if_false, hg]; rfl⟩

theorem timerExpired_mono (env : Env) (fuel fuel' : Nat) (hle : fuel ≤ fuel')
    (s s' : NdnHelloWorldClient) (h : timerExpired env fuel s = some s') :
    timerExpired env fuel' s = some s' := by
  unfold timerExpired at h ⊢
  split_ifs at h ⊢
  · exact sendInterest_mono env fuel fuel' hle _ _ h
  · exact h

theorem timerExpired_total (env : Env) (hp : Productive env) (s : NdnHelloWorldClient) :
    ∃ fuel s', timerExpired env fuel s = some s' := by
  unfold timerExpired
  split_ifs
  · exact sendInterest_total env hp _
  · exact ⟨0, s, rfl⟩

/-! ## The event loop of the client -/

theorem processEvents_stopped (env : Env) (fuel : Nat) (s : NdnHelloWorldClient)
    (hs : s.ioStopped = true) (events : List ClientEvent) :
    processEvents env fuel s events = .stopped s := by
  cases events <;> simp [processEvents, hs]

theorem processEvents_nil_blocked (env : Env) (fuel : Nat) (s t : NdnHelloWorldClient)
    (h : processEvents env fuel s [] = .blocked t) : s.ioStopped = false ∧ t = s := by
  by_cases hs : s.ioStopped = true
  · simp [processEvents, hs] at h
  · have hs' : s.ioStopped = false := by simpa using hs
    simp [processEvents, hs'] at h
    exact ⟨hs', h.symm⟩

/-- A loop that handled `e :: es` and is still waiting ran the handler of `e`
and then handled `es`. -/
theorem processEvents_cons_blocked (env : Env) (fuel : Nat) (s t : NdnHelloWorldClient)
    (e : ClientEvent) (es : List ClientEvent)
    (h : processEvents env fuel s (e :: es) = .blocked t) :
    s.ioStopped = false ∧ (∀ what, e ≠ .channelError what) ∧
    ∃ s1, handler env fuel s e = some s1 ∧ s1.ioStopped = false ∧
      processEvents env fuel s1 es = .blocked t := by
  by_cases hs : s.ioStopped = true
  · simp [processEvents, hs] at h
  · have hs' : s.ioStopped = false := by simpa using hs
    refine ⟨hs', ?_⟩
    have key : ∀ s1, handler env fuel s e = some s1 →
        processEvents env fuel s1 es = .blocked t → s1.ioStopped = false := by
      intro s1 _ h1
      by_contra hc
      rw [processEvents_stopped env fuel s1 (by simpa using hc)] at h1
      simp at h1
    cases e with
    | channelError what => simp [processEvents, hs'] at h
    | timerExpired =>
      refine ⟨by simp, ?_⟩
      cases hh : handler env fuel s .timerExpired with
      | none => simp [processEvents, hs', hh] at h
      | some s1 =>
        simp only [processEvents, hs', hh] at h
        exact ⟨s1, rfl, key s1 hh (by simpa using h), by simpa using h⟩
    | data i d =>
      refine ⟨by simp, ?_⟩
      simp only [processEvents, hs', handler] at h
      exact ⟨_, rfl, key _ rfl (by simpa using h), by simpa using h⟩
    | nack i reason =>
      refine ⟨by simp, ?_⟩
      simp only [processEvents, hs', handler] at h
      exact ⟨_, rfl, key _ rfl (by simpa using h), by simpa using h⟩
    | timeout i =>
      refine ⟨by simp, ?_⟩
      simp only [processEvents, hs', handler] at h
      exact ⟨_, rfl, key _ rfl (by simpa using h), by simpa using h⟩
    | signal =>
      refine ⟨by simp, ?_⟩
      simp only [processEvents, hs', handler] at h
      exact ⟨_, rfl, key _ rfl (by simpa using h), by simpa using h⟩

theorem processEvents_cons_of_handler (env : Env) (fuel : Nat) (s s1 : NdnHelloWorldClient)
    (e : ClientEvent) (es : List ClientEvent) (hs : s.ioStopped = false)
    (he : ∀ what, e ≠ .channelError what) (hh : handler env fuel s e = some s1) :
    processEvents env fuel s (e :: es) = processEvents env fuel s1 es := by
  cases e with
  | channelError what => exact absurd rfl (he what)
  | _ => simp only [processEvents, hs, hh]; simp

theorem SameControl.rfl (s : NdnHelloWorldClient) : SameControl s s :=
  ⟨Eq.refl _, Eq.refl _, Eq.refl _, Eq.refl _, Eq.refl _, Eq.refl _⟩

theorem SameControl.trans {s t u : NdnHelloWorldClient} (h1 : SameControl s t)
    (h2 : SameControl t u) : SameControl s u := by
  unfold SameControl at h1 h2 ⊢
  refine ⟨h2.1.trans h1.1, h2.2.1.trans h1.2.1, h2.2.2.1.trans h1.2.2.1, ?_, ?_, ?_⟩
  · exact h2.2.2.2.1.trans h1.2.2.2.1
  · exact h2.2.2.2.2.1.trans h1.2.2.2.2.1
  · exact h2.2.2.2.2.2.trans h1.2.2.2.2.2

theorem timerExpired_frame (env : Env) (fuel : Nat) (s s1 : NdnHelloWorldClient)
    (h : timerExpired env fuel s = some s1) :
    SameControl s s1 ∧ s1.m_nInterestsReceived = s.m_nInterestsReceived := by
  unfold timerExpired at h
  split_ifs at h with hp
  · by_cases hl : ({ s with timer := { s.timer with pending := false } } :
        NdnHelloWorldClient).limitReached = true
    · rw [sendInterest_of_limit env fuel _ hl] at h
      simp only [Option.some.injEq] at h
      subst h
      exact ⟨⟨rfl, rfl, rfl, rfl, rfl, rfl⟩, rfl⟩
    · obtain ⟨_, h2, h3, h4, h5, h6, h7, h8, _, _⟩ :=
        sendInterest_fields env fuel _ s1 (by simpa using hl) h
      exact ⟨⟨h7, h8, h3, h4, h5, h6⟩, h2⟩
  · simp only [Option.some.injEq] at h
    subst h
    exact ⟨SameControl.rfl s, rfl⟩

/-- What the handler of one event does, when the loop goes on after it. -/
theorem handler_step (env : Env) (fuel : Nat) (s s1 : NdnHelloWorldClient) (e : ClientEvent)
    (h : handler env fuel s e = some s1) (hs1 : s1.ioStopped = false) :
    SameControl s s1 ∧
    (e ≠ .timerExpired →
      s1.m_nInterestsSent = s.m_nInterestsSent ∧ s1.faceCalls = s.faceCalls ∧
      s1.expressed = s.expressed ∧ s1.timer = s.timer ∧ s1.m_nonces = s.m_nonces) ∧
    ((∀ i d, e ≠ .data i d) → s1.m_nInterestsReceived = s.m_nInterestsReceived) ∧
    (∀ i d, e = .data i d →
      s1.m_nInterestsReceived = (s.m_nInterestsReceived + 1) % UINT64_MOD) := by
  cases e with
  | timerExpired =>
    obtain ⟨h1, h2⟩ := timerExpired_frame env fuel s s1 h
    exact ⟨h1, fun hne => absurd rfl hne, fun _ => h2, fun i d hid => by simp at hid⟩
  | data i d =>
    simp only [handler, Option.some.injEq] at h
    subst h
    exact ⟨⟨rfl, rfl, rfl, rfl, rfl, rfl⟩, fun _ => ⟨rfl, rfl, rfl, rfl, rfl⟩,
      fun hne => absurd rfl (hne i d), fun _ _ _ => rfl⟩
  | nack i reason =>
    simp only [handler, Option.some.injEq] at h
    subst h
    exact ⟨⟨rfl, rfl, rfl, rfl, rfl, rfl⟩, fun _ => ⟨rfl, rfl, rfl, rfl, rfl⟩,
      fun _ => rfl, fun i d hid => by simp at hid⟩
  | timeout i =>
    simp only [handler, Option.some.injEq] at h
    subst h
    exact ⟨⟨rfl, rfl, rfl, rfl, rfl, rfl⟩, fun _ => ⟨rfl, rfl, rfl, rfl, rfl⟩,
      fun _ => rfl, fun i d hid => by simp at hid⟩
  | signal =>
    simp only [handler, Option.some.injEq] at h
    by_cases hw : s.signalWaiting = true
    · rw [if_pos hw] at h
      subst h
      simp [stop] at hs1
    · rw [if_neg hw] at h
      subst h
      exact ⟨SameControl.rfl s, fun _ => ⟨rfl, rfl, rfl, rfl, rfl⟩,
        fun _ => rfl, fun i d hid => by simp at hid⟩
  | channelError what =>
    simp only [handler, Option.some.injEq] at h
    subst h
    exact ⟨SameControl.rfl s, fun _ => ⟨rfl, rfl, rfl, rfl, rfl⟩,
      fun _ => rfl, fun i d hid => by simp at hid⟩

/-- A loop that handled `pre` and is still waiting goes on from its state. -/
theorem processEvents_blocked (env : Env) (fuel : Nat) (pre : List ClientEvent) :
    ∀ s t : NdnHelloWorldClient, processEvents env fuel s pre = .blocked t →
      SameControl s t ∧ t.ioStopped = false ∧
      ∀ rest, processEvents env fuel s (pre ++ rest) = processEvents env fuel t rest := by
  induction pre with
  | nil =>
    intro s t h
    obtain ⟨hs, rfl⟩ := processEvents_nil_blocked env fuel s t h
    exact ⟨SameControl.rfl _, hs, fun _ => rfl⟩
  | cons e es ih =>
    intro s t h
    obtain ⟨hs, hne, s1, hh, hs1, hrest⟩ := processEvents_cons_blocked env fuel s t e es h
    obtain ⟨hc, ht, happ⟩ := ih s1 t hrest
    refine ⟨(handler_step env fuel s s1 e hh hs1).1.trans hc, ht, ?_⟩
    intro rest
    rw [List.cons_append, processEvents_cons_of_handler env fuel s s1 e _ hs hne hh]
    exact happ rest

theorem handler_mono (env : Env) (fuel fuel' : Nat) (hle : fuel ≤ fuel')
    (s s1 : NdnHelloWorldClient) (e : ClientEvent) (h : handler env fuel s e = some s1) :
    handler env fuel' s e = some s1 := by
  cases e with
  | timerExpired => exact timerExpired_mono env fuel fuel' hle s s1 h
  | _ => exact h

theorem processEvents_mono (env : Env) (fuel fuel' : Nat) (hle : fuel ≤ fuel')
    (pre : List ClientEvent) :
    ∀ s t : NdnHelloWorldClient, processEvents env fuel s pre = .blocked t →
      processEvents env fuel' s pre = .blocked t := by
  induction pre with
  | nil =>
    intro s t h
    obtain ⟨hs, rfl⟩ := processEvents_nil_blocked env fuel s t h
    simp [processEvents, hs]
  | cons e es ih =>
    intro s t h
    obtain ⟨hs, hne, s1, hh, _, hrest⟩ := processEvents_cons_blocked env fuel s t e es h
    rw [processEvents_cons_of_handler env fuel' s s1 e _ hs hne
      (handler_mono env fuel fuel' hle s s1 e hh)]
    exact ih s1 t hrest

/-- With a productive generator, enough fuel lets the loop handle any
sequence of deliveries. -/
theorem processEvents_total (env : Env) (hp : Productive env) (pre : List ClientEvent)
    (hpre : ∀ e ∈ pre, e.isDelivery = true) :
    ∀ s : NdnHelloWorldClient, s.ioStopped = false →
      ∃ fuel t, processEvents env fuel s pre = .blocked t := by
  induction pre with
  | nil =>
    intro s hs
    exact ⟨0, s, by simp [processEvents, hs]⟩
  | cons e es ih =>
    intro s hs
    have hes : ∀ x ∈ es, x.isDelivery = true := fun x hx => hpre x (List.mem_cons_of_mem _ hx)
    have he : e.isDelivery = true := hpre e (List.mem_cons_self _ _)
    have hne : ∀ what, e ≠ .channelError what := by
      intro what hc; subst hc; simp [ClientEvent.isDelivery] at he
    have hstep : ∃ f1 s1, handler env f1 s e = some s1 ∧ s1.ioStopped = false := by
      cases e with
      | timerExpired =>
        obtain ⟨f1, s1, h1⟩ := timerExpired_total env hp s
        exact ⟨f1, s1, h1, (timerExpired_frame env f1 s s1 h1).1.1.trans hs⟩
      | data i d => exact ⟨0, _, rfl, hs⟩
      | nack i reason => exact ⟨0, _, rfl, hs⟩
      | timeout i => exact ⟨0, _, rfl, hs⟩
      | signal => simp [ClientEvent.isDelivery] at he
      | channelError what => simp [ClientEvent.isDelivery] at he
    obtain ⟨f1, s1, h1, hs1⟩ := hstep
    obtain ⟨f2, t, h2⟩ := ih hes s1 hs1
    refine ⟨max f1 f2, t, ?_⟩
    rw [processEvents_cons_of_handler env _ s s1 e _ hs hne
      (handler_mono env f1 _ (Nat.le_max_left _ _) s s1 e h1)]
    exact processEvents_mono env f2 _ (Nat.le_max_right _ _) es s1 t h2

/-! ## Sequence numbers and the sent counter -/

theorem range_succ_map_mod (n : Nat) (f : Nat → Name) :
    (List.range (n + 1)).map f = (List.range n).map f ++ [f n] := by
  rw [List.range_succ, List.map_append, List.map_singleton]

/-- The bookkeeping of `sendInterest` is preserved by every handler: the
sent counter is the number of calls of `expressInterest` modulo `2 ^ 64`, the
`i`-th call was for the name `namePrefix + (i mod 2 ^ 64)`, and the accepted
Interests are among the calls, in order. -/
theorem handler_bookkeeping (env : Env) (fuel : Nat) (s s1 : NdnHelloWorldClient)
    (e : ClientEvent) (h : handler env fuel s e = some s1) (hs1 : s1.ioStopped = false)
    (h1 : s.m_nInterestsSent = s.faceCalls.length % UINT64_MOD)
    (h2 : s.faceCalls.map (fun r => r.name) = (List.range s.faceCalls.length).map
      (fun i => (Name.ofUri s.namePrefix).appendSequenceNumber (i % UINT64_MOD)))
    (h3 : s.expressed.Sublist s.faceCalls) :
    s1.m_nInterestsSent = s1.faceCalls.length % UINT64_MOD ∧
    s1.faceCalls.map (fun r => r.name) = (List.range s1.faceCalls.length).map
      (fun i => (Name.ofUri s1.namePrefix).appendSequenceNumber (i % UINT64_MOD)) ∧
    s1.expressed.Sublist s1.faceCalls ∧
    ((∀ i, env.expressInterest i = none) → s.expressed = s.faceCalls →
      s1.expressed = s1.faceCalls) := by
  obtain ⟨hc, hframe, _, _⟩ := handler_step env fuel s s1 e h hs1
  by_cases he : e = .timerExpired
  · subst he
    simp only [handler, timerExpired] at h
    split_ifs at h with hp
    · by_cases hl : ({ s with timer := { s.timer with pending := false } } :
          NdnHelloWorldClient).limitReached = true
      · rw [sendInterest_of_limit env fuel _ hl] at h
        simp only [Option.some.injEq] at h
        subst h
        exact ⟨h1, h2, h3, fun _ hx => hx⟩
      · obtain ⟨f1, _, _, _, f5, _, _, _, _, interest, g1, g2, g3, g4⟩ :=
          sendInterest_fields env fuel _ s1 (by simpa using hl) h
        simp only at f1 f5 g1 g2 g3 g4
        refine ⟨?_, ?_, ?_, ?_⟩
        · rw [f1, g2, h1, List.length_append, List.length_singleton, Nat.add_mod]
          simp
        · rw [g2, List.map_append, List.length_append, List.length_singleton,
            range_succ_map_mod, f5, h2, List.map_singleton, g1, h1]
        · cases hx : env.expressInterest s.faceCalls.length with
          | none =>
            rw [g3 hx, g2]
            exact List.Sublist.append h3 (List.Sublist.refl _)
          | some what =>
            rw [(g4 what hx).1, g2]
            exact h3.trans (List.sublist_append_left _ _)
        · intro hr hx
          rw [g3 (hr _), g2, hx]
    · simp only [Option.some.injEq] at h
      subst h
      exact ⟨h1, h2, h3, fun _ hx => hx⟩
  · obtain ⟨k1, k2, k3, _, _⟩ := hframe he
    obtain ⟨_, _, _, _, k5, _⟩ := hc
    rw [k1, k2, k3, k5]
    exact ⟨h1, h2, h3, fun _ hx => hx⟩

theorem processEvents_bookkeeping (env : Env) (fuel : Nat) (pre : List ClientEvent) :
    ∀ s t : NdnHelloWorldClient, processEvents env fuel s pre = .blocked t →
      s.m_nInterestsSent = s.faceCalls.length % UINT64_MOD →
      s.faceCalls.map (fun r => r.name) = (List.range s.faceCalls.length).map
        (fun i => (Name.ofUri s.namePrefix).appendSequenceNumber (i % UINT64_MOD)) →
      s.expressed.Sublist s.faceCalls →
      t.m_nInterestsSent = t.faceCalls.length % UINT64_MOD ∧
      t.faceCalls.map (fun r => r.name) = (List.range t.faceCalls.length).map
        (fun i => (Name.ofUri t.namePrefix).appendSequenceNumber (i % UINT64_MOD)) ∧
      t.expressed.Sublist t.faceCalls ∧
      ((∀ i, env.expressInterest i = none) → s.expressed = s.faceCalls →
        t.expressed = t.faceCalls) := by
  induction pre with
  | nil =>
    intro s t h h1 h2 h3
    obtain ⟨_, rfl⟩ := processEvents_nil_blocked env fuel s t h
    exact ⟨h1, h2, h3, fun _ hx => hx⟩
  | cons e es ih =>
    intro s t h h1 h2 h3
    obtain ⟨_, _, s1, hh, hs1, hrest⟩ := processEvents_cons_blocked env fuel s t e es h
    obtain ⟨b1, b2, b3, b4⟩ := handler_bookkeeping env fuel s s1 e hh hs1 h1 h2 h3
    obtain ⟨c1, c2, c3, c4⟩ := ih s1 t hrest b1 b2 b3
    exact ⟨c1, c2, c3, fun hr hx => c4 hr (b4 hr hx)⟩

theorem run_blocked_iff (env : Env) (fuel : Nat) (s t : NdnHelloWorldClient)
    (events : List ClientEvent) (hzero : s.m_nMaximumInterests ≠ some 0) :
    s.run env fuel events = .blocked t ↔
      processEvents env fuel (s.started env).scheduled events = .blocked t := by
  have hz : ((s.started env).m_nMaximumInterests == some 0) = false := by
    simpa [started] using hzero
  simp only [run, hz]
  cases processEvents env fuel (s.started env).scheduled events <;> simp

/-- The completed counter counts the Data deliveries, modulo `2 ^ 64`. -/
theorem processEvents_received (env : Env) (fuel : Nat) (pre : List ClientEvent) :
    ∀ s t : NdnHelloWorldClient, s.m_nInterestsReceived < UINT64_MOD →
      processEvents env fuel s pre = .blocked t →
      t.m_nInterestsReceived =
        (s.m_nInterestsReceived + pre.countP ClientEvent.isData) % UINT64_MOD := by
  induction pre with
  | nil =>
    intro s t hlt h
    obtain ⟨_, rfl⟩ := processEvents_nil_blocked env fuel s t h
    simp [Nat.mod_eq_of_lt hlt]
  | cons e es ih =>
    intro s t hlt h
    obtain ⟨_, _, s1, hh, hs1, hrest⟩ := processEvents_cons_blocked env fuel s t e es h
    obtain ⟨_, _, hnd, hd⟩ := handler_step env fuel s s1 e hh hs1
    by_cases he : e.isData = true
    · obtain ⟨i, d, rfl⟩ : ∃ i d, e = .data i d := by
        cases e with
        | data i d => exact ⟨i, d, rfl⟩
        | _ => simp [ClientEvent.isData] at he
      have h1 := hd i d rfl
      have hpos : 0 < UINT64_MOD := by decide
      rw [ih s1 t (by rw [h1]; exact Nat.mod_lt _ hpos) hrest, h1, List.countP_cons_of_pos _ _ he,
        Nat.mod_add_mod]
      congr 1
      omega
    · have h1 : s1.m_nInterestsReceived = s.m_nInterestsReceived := by
        apply hnd
        intro i d hid
        subst hid
        simp [ClientEvent.isData] at he
      rw [ih s1 t (by rw [h1]; exact hlt) hrest, h1, List.countP_cons_of_neg _ _ he]

/-! ## Exit status of the client -/

theorem client_run_signal (env : Env) (fuel : Nat) (s t : NdnHelloWorldClient)
    (pre post : List ClientEvent) (hzero : s.m_nMaximumInterests ≠ some 0)
    (herr : s.m_hasError = false)
    (hpre : processEvents env fuel (s.started env).scheduled pre = .blocked t) :
    s.run env fuel (pre ++ .signal :: post) =
      .returned (if t.m_nInterestsSent ≠ t.m_nInterestsReceived then 1 else 0) t.stop := by
  obtain ⟨⟨_, hw, he, _, _, _⟩, hio, happ⟩ := processEvents_blocked env fuel pre _ t hpre
  have hw' : t.signalWaiting = true := by simpa [started, scheduled] using hw
  have he' : t.m_hasError = false := by simpa [started, scheduled, herr] using he
  have hloop : processEvents env fuel (s.started env).scheduled (pre ++ .signal :: post) =
      .stopped t.stop := by
    rw [happ, processEvents_cons_of_handler env fuel t t.stop .signal post hio (by simp)
      (by simp [handler, hw'])]
    exact processEvents_stopped env fuel _ (by simp [stop]) post
  have hz : ((s.started env).m_nMaximumInterests == some 0) = false := by
    simpa [started] using hzero
  have hflag : t.stop.m_hasError = decide (t.m_nInterestsSent ≠ t.m_nInterestsReceived) := by
    by_cases hd : t.m_nInterestsSent = t.m_nInterestsReceived <;> simp [stop, hd, he']
  simp only [run, hz, hloop, hflag]
  by_cases hd : t.m_nInterestsSent = t.m_nInterestsReceived <;> simp [hd]

/-- C4 (client exit status). Let the signal handler `stop()` run when
`run()` has handled the events `pre` and is still waiting (it did not stop
and no exception escaped), on a client whose maximum is not 0; `t` is the
client at that moment. Then `run()` returns 1 exactly when the sent counter
of `t` differs from its completed counter, and 0 exactly when they are equal;
in particular it returns 1 when sent > 0 and completed = 0, and 0 when
completed equals sent. In terms of events, for a fresh client on a face that
never throws and fewer than `2 ^ 64` requests: it returns 1 when a request
was dispatched and no Data packet was delivered, and 0 when as many Data
packets were delivered as requests were dispatched. With a productive
generator, enough fuel lets `run()` reach that moment after any sequence of
deliveries. -/
theorem client_exit_status (env : Env) (fuel : Nat) (s : NdnHelloWorldClient)
    (pre post : List ClientEvent) (hzero : s.m_nMaximumInterests ≠ some 0)
    (herr : s.m_hasError = false) :
    (∀ t, s.run env fuel pre = .blocked t →
      ((s.run env fuel (pre ++ .signal :: post)).exitCode = some 1 ↔
        t.m_nInterestsSent ≠ t.m_nInterestsReceived) ∧
      ((s.run env fuel (pre ++ .signal :: post)).exitCode = some 0 ↔
        t.m_nInterestsSent = t.m_nInterestsReceived) ∧
      (0 < t.m_nInterestsSent → t.m_nInterestsReceived = 0 →
        (s.run env fuel (pre ++ .signal :: post)).exitCode = some 1) ∧
      (t.m_nInterestsReceived = t.m_nInterestsSent →
        (s.run env fuel (pre ++ .signal :: post)).exitCode = some 0) ∧
      ((∀ i, env.expressInterest i = none) → s.m_nInterestsSent = 0 →
        s.m_nInterestsReceived = 0 → s.faceCalls = [] → s.expressed = [] →
        t.faceCalls.length < UINT64_MOD →
        (t.expressed ≠ [] → pre.countP ClientEvent.isData = 0 →
          (s.run env fuel (pre ++ .signal :: post)).exitCode = some 1) ∧
        (pre.countP ClientEvent.isData = t.expressed.length →
          (s.run env fuel (pre ++ .signal :: post)).exitCode = some 0))) ∧
    (Productive env → s.ioStopped = false → (∀ e ∈ pre, e.isDelivery = true) →
      ∃ fuel' t, s.run env fuel' pre = .blocked t) := by
  refine ⟨?_, ?_⟩
  · intro t hblocked
    have hpre := (run_blocked_iff env fuel s t pre hzero).mp hblocked
    have hrun := client_run_signal env fuel s t pre post hzero herr hpre
    have hiff1 : (s.run env fuel (pre ++ .signal :: post)).exitCode = some 1 ↔
        t.m_nInterestsSent ≠ t.m_nInterestsReceived := by
      rw [hrun]
      by_cases hd : t.m_nInterestsSent = t.m_nInterestsReceived <;> simp [Outcome.exitCode, hd]
    have hiff0 : (s.run env fuel (pre ++ .signal :: post)).exitCode = some 0 ↔
        t.m_nInterestsSent = t.m_nInterestsReceived := by
      rw [hrun]
      by_cases hd : t.m_nInterestsSent = t.m_nInterestsReceived <;> simp [Outcome.exitCode, hd]
    refine ⟨hiff1, hiff0, ?_, ?_, ?_⟩
    · intro hpos hz
      exact hiff1.mpr (by omega)
    · intro heq
      exact hiff0.mpr heq.symm
    · intro hr hsent hrecv hcalls hexp hlt
      obtain ⟨b1, _, _, b4⟩ := processEvents_bookkeeping env fuel pre (s.started env).scheduled t
        hpre (by simp [started, scheduled, hsent, hcalls]) (by simp [started, scheduled, hcalls])
        (by simp [started, scheduled, hcalls, hexp])
      have hfe := b4 hr (by simp [started, scheduled, hcalls, hexp])
      have hrec := processEvents_received env fuel pre (s.started env).scheduled t
        (by simp [started, scheduled, hrecv]; decide) hpre
      simp only [started, scheduled, hrecv, Nat.zero_add] at hrec
      rw [Nat.mod_eq_of_lt hlt] at b1
      refine ⟨?_, ?_⟩
      · intro hne hc
        apply hiff1.mpr
        rw [hrec, hc, Nat.zero_mod, b1, ← hfe]
        have : 0 < t.expressed.length := List.length_pos.mpr hne
        omega
      · intro hc
        apply hiff0.mpr
        rw [hrec, hc, b1, hfe, Nat.mod_eq_of_lt hlt]
  · intro hp hio hpre
    obtain ⟨fuel', t, ht⟩ := processEvents_total env hp pre hpre (s.started env).scheduled
      (by simpa [started, scheduled] using hio)
    exact ⟨fuel', t, (run_blocked_iff env fuel' s t pre hzero).mpr ht⟩

/-- Instance of C4: two requests sent, both timed out, then the signal;
and two requests sent, both answered, then the signal. -/
theorem client_exit_status_witness :
    ((new "/hello").run reliableEnv 1
      ([.timerExpired, .timerExpired, .timeout (sampleInterest 0), .timeout (sampleInterest 1)]
        ++ .signal :: [])).exitCode = some 1 ∧
    ((new "/hello").run reliableEnv 1
      ([.timerExpired, .timerExpired,
        .data (sampleInterest 0) ((NdnHelloWorldServer.new "/hello" true).makeData (sampleInterest 0)),
        .data (sampleInterest 1) ((NdnHelloWorldServer.new "/hello" true).makeData (sampleInterest 1))]
        ++ .signal :: [])).exitCode = some 0 := by
  constructor
  · have h := (client_exit_status reliableEnv 1 (new "/hello")
      [.timerExpired, .timerExpired, .timeout (sampleInterest 0), .timeout (sampleInterest 1)] []
      (by decide) rfl).1 _ rfl
    exact h.2.2.1 (by decide) (by decide)
  · have h := (client_exit_status reliableEnv 1 (new "/hello")
      [.timerExpired, .timerExpired,
        .data (sampleInterest 0) ((NdnHelloWorldServer.new "/hello" true).makeData (sampleInterest 0)),
        .data (sampleInterest 1) ((NdnHelloWorldServer.new "/hello" true).makeData (sampleInterest 1))]
      [] (by decide) rfl).1 _ rfl
    exact h.2.2.2.1 (by decide)

/-! ## The request limit -/

/-- With a maximum `N`, the loop sends one request per timer event until the
sent counter is `N`, and then lets the timer lapse. -/
theorem processEvents_timer_count (env : Env) (fuel N : Nat) (hN : N < UINT64_MOD)
    (pre : List ClientEvent) :
    ∀ s t : NdnHelloWorldClient, s.m_nMaximumInterests = some N → s.m_nInterestsSent ≤ N →
      (s.timer.pending = false → s.m_nInterestsSent = N) →
      processEvents env fuel s pre = .blocked t →
      t.m_nInterestsSent = min (s.m_nInterestsSent + pre.count .timerExpired) N ∧
      t.timer.pending =
        (s.timer.pending && decide (s.m_nInterestsSent + pre.count .timerExpired ≤ N)) ∧
      t.faceCalls.length = s.faceCalls.length +
        (min (s.m_nInterestsSent + pre.count .timerExpired) N - s.m_nInterestsSent) := by
  induction pre with
  | nil =>
    intro s t hmax hle hnp h
    obtain ⟨_, rfl⟩ := processEvents_nil_blocked env fuel s t h
    refine ⟨?_, ?_, ?_⟩
    · simp [Nat.min_eq_left hle]
    · simp [hle]
    · simp [Nat.min_eq_left hle]
  | cons e es ih =>
    intro s t hmax hle hnp h
    obtain ⟨_, _, s1, hh, hs1, hrest⟩ := processEvents_cons_blocked env fuel s t e es h
    obtain ⟨hc, hframe, _, _⟩ := handler_step env fuel s s1 e hh hs1
    by_cases he : e = .timerExpired
    · subst he
      rw [List.count_cons_self]
      simp only [handler, timerExpired] at hh
      split_ifs at hh with hp
      · by_cases hl : ({ s with timer := { s.timer with pending := false } } :
            NdnHelloWorldClient).limitReached = true
        · rw [sendInterest_of_limit env fuel _ hl] at hh
          simp only [Option.some.injEq] at hh
          subst hh
          have hge : N ≤ s.m_nInterestsSent := by simpa [limitReached, hmax] using hl
          have heq : s.m_nInterestsSent = N := by omega
          obtain ⟨i1, i2, i3⟩ := ih { s with timer := { s.timer with pending := false } } t
            hmax hle (fun _ => heq) hrest
          simp only at i1 i2 i3
          refine ⟨?_, ?_, ?_⟩
          · rw [i1, heq]; simp
          · rw [i2]; simp; intro _; omega
          · rw [i3, heq]; simp
        · have hlt : s.m_nInterestsSent < N := by
            have : ¬ N ≤ s.m_nInterestsSent := by simpa [limitReached, hmax] using hl
            omega
          obtain ⟨f1, _, _, f4, _, _, _, _, f9, interest, _, g2, _, _⟩ :=
            sendInterest_fields env fuel _ s1 (by simpa using hl) hh
          simp only at f1 f4 f9 g2
          have hs1sent : s1.m_nInterestsSent = s.m_nInterestsSent + 1 := by
            rw [f1]; exact Nat.mod_eq_of_lt (by omega)
          have hs1p : s1.timer.pending = true := by rw [f9]
          obtain ⟨i1, i2, i3⟩ := ih s1 t (f4.trans hmax) (by omega)
            (fun hf => by rw [hs1p] at hf; simp at hf) hrest
          rw [hs1sent] at i1 i2 i3
          rw [hs1p] at i2
          rw [g2, List.length_append, List.length_singleton] at i3
          have e1 : s.m_nInterestsSent + 1 + List.count ClientEvent.timerExpired es =
              s.m_nInterestsSent + (List.count ClientEvent.timerExpired es + 1) := by omega
          rw [e1] at i1 i2 i3
          refine ⟨i1, ?_, ?_⟩
          · rw [i2, hp]
          · rw [i3]; omega
      · simp only [Option.some.injEq] at hh
        subst hh
        have hpf : s.timer.pending = false := by simpa using hp
        have heq := hnp hpf
        obtain ⟨i1, i2, i3⟩ := ih _ t hmax hle hnp hrest
        refine ⟨?_, ?_, ?_⟩
        · rw [i1, heq]; simp
        · rw [i2, hpf]; simp
        · rw [i3, heq]; simp
    · obtain ⟨k1, k2, _, k4, _⟩ := hframe he
      obtain ⟨_, _, _, k5, _, _⟩ := hc
      have hcount : List.count ClientEvent.timerExpired (e :: es) =
          List.count ClientEvent.timerExpired es :=
        List.count_cons_of_ne (fun hx => he hx.symm) es
      obtain ⟨i1, i2, i3⟩ := ih s1 t (k5.trans hmax) (by omega)
        (fun hf => by rw [k1]; exact hnp (by rw [← k4]; exact hf)) hrest
      rw [hcount]
      rw [k1] at i1 i2 i3
      rw [k4] at i2
      rw [k2] at i3
      exact ⟨i1, i2, i3⟩

theorem map_range_mod (n : Nat) (hn : n ≤ UINT64_MOD) (f : Nat → Name) :
    (List.range n).map (fun i => f (i % UINT64_MOD)) = (List.range n).map f := by
  apply List.map_congr_left
  intro i hi
  rw [Nat.mod_eq_of_lt (by have := List.mem_range.mp hi; omega)]

theorem seqNo_of_names (l : List Interest) (pfx : String) (n : Nat)
    (h : l.map (fun r => r.name) =
      (List.range n).map (fun i => (Name.ofUri pfx).appendSequenceNumber i)) :
    l.map Interest.seqNo = List.range n := by
  have h2 := congrArg (List.map (fun nm : Name => nm.seqs.getLastD 0)) h
  simp only [List.map_map] at h2
  have e1 : ((fun nm : Name => nm.seqs.getLastD 0) ∘ fun r : Interest => r.name) =
      Interest.seqNo := by
    funext r; rfl
  have e2 : ((fun nm : Name => nm.seqs.getLastD 0) ∘
      fun i => (Name.ofUri pfx).appendSequenceNumber i) = id := by
    funext i; simp [Name.ofUri, Name.appendSequenceNumber]
  rw [e1, e2, List.map_id] at h2
  exact h2

/-- C2 (request scheduler limit). For a configured maximum `N > 0`, a
face whose `expressInterest` never throws and a client that has sent nothing,
whenever `run()` has handled a sequence of events containing `k` timer
expirations and is still waiting: the sent counter is `min k N`, exactly
`min k N` requests were dispatched, with sequence numbers `0 .. min k N - 1`,
and the timer is pending exactly when `k ≤ N`. A tick that finds
`sent >= N` leaves the client unchanged: nothing is dispatched, no counter
changes and the timer is not rescheduled. With a productive generator,
enough fuel lets `run()` handle any sequence of deliveries. -/
theorem sendInterest_limit (env : Env) (fuel N : Nat) (hN0 : 0 < N) (hN : N < UINT64_MOD)
    (henv : ∀ i, env.expressInterest i = none) (s : NdnHelloWorldClient)
    (hmax : s.m_nMaximumInterests = some N) (hsent : s.m_nInterestsSent = 0)
    (hcalls : s.faceCalls = []) (hexp : s.expressed = []) (pre : List ClientEvent) :
    (∀ t, s.run env fuel pre = .blocked t →
      t.m_nInterestsSent = min (pre.count .timerExpired) N ∧
      t.expressed.length = min (pre.count .timerExpired) N ∧
      t.expressed.map (fun r => r.name) = (List.range (min (pre.count .timerExpired) N)).map
        (fun i => (Name.ofUri s.namePrefix).appendSequenceNumber i) ∧
      t.faceCalls = t.expressed ∧
      t.timer.pending = decide (pre.count .timerExpired ≤ N)) ∧
    (∀ u : NdnHelloWorldClient, u.m_nMaximumInterests = some N → N ≤ u.m_nInterestsSent →
      sendInterest env fuel u = some u) ∧
    (Productive env → s.ioStopped = false → (∀ e ∈ pre, e.isDelivery = true) →
      ∃ fuel' t, s.run env fuel' pre = .blocked t) := by
  have hzero : s.m_nMaximumInterests ≠ some 0 := by rw [hmax]; simp; omega
  refine ⟨?_, ?_, ?_⟩
  · intro t hrun
    have hpre := (run_blocked_iff env fuel s t pre hzero).mp hrun
    obtain ⟨i1, i2, i3⟩ := processEvents_timer_count env fuel N hN pre (s.started env).scheduled t
      (by simpa [started, scheduled] using hmax) (by simp [started, scheduled, hsent])
      (by simp [started, scheduled]) hpre
    obtain ⟨_, b2, _, b4⟩ := processEvents_bookkeeping env fuel pre (s.started env).scheduled t hpre
      (by simp [started, scheduled, hsent, hcalls]) (by simp [started, scheduled, hcalls])
      (by simp [started, scheduled, hcalls, hexp])
    obtain ⟨⟨_, _, _, _, c5, _⟩, _, _⟩ := processEvents_blocked env fuel pre _ t hpre
    have hfe := b4 henv (by simp [started, scheduled, hcalls, hexp])
    simp only [started, scheduled, hsent, hcalls, List.length_nil, Nat.zero_add, Nat.sub_zero,
      Bool.true_and] at i1 i2 i3 c5
    have hlen : t.faceCalls.length ≤ UINT64_MOD := by
      rw [i3]; have := Nat.min_le_right (List.count ClientEvent.timerExpired pre) N; omega
    rw [map_range_mod _ hlen, c5, i3] at b2
    refine ⟨i1, by rw [hfe, i3], by rw [hfe]; exact b2, hfe.symm, i2⟩
  · intro u hu hge
    exact sendInterest_of_limit env fuel u (by simp [limitReached, hu, hge])
  · intro hp hio hpre
    obtain ⟨fuel', t, ht⟩ := processEvents_total env hp pre hpre (s.started env).scheduled
      (by simpa [started, scheduled] using hio)
    exact ⟨fuel', t, (run_blocked_iff env fuel' s t pre hzero).mpr ht⟩

/-- Instance of C2: with `--count 2`, five timer expirations (the last two
cannot occur: the timer is no longer pending) leave two requests sent. -/
theorem sendInterest_limit_witness :
    ∃ t, ((new "/hello").setMaximumInterests 2).run reliableEnv 1
        [.timerExpired, .timerExpired, .timerExpired, .timerExpired, .timerExpired] = .blocked t ∧
      t.m_nInterestsSent = 2 ∧ t.expressed.length = 2 ∧ t.timer.pending = false := by
  obtain ⟨t, ht⟩ : ∃ t, ((new "/hello").setMaximumInterests 2).run reliableEnv 1
      [.timerExpired, .timerExpired, .timerExpired, .timerExpired, .timerExpired] = .blocked t :=
    ⟨_, rfl⟩
  have h := (sendInterest_limit reliableEnv 1 2 (by decide) (by decide) (fun _ => rfl)
    ((new "/hello").setMaximumInterests 2) rfl rfl rfl rfl
    [.timerExpired, .timerExpired, .timerExpired, .timerExpired, .timerExpired]).1 t ht
  have hc : List.count ClientEvent.timerExpired
      [.timerExpired, .timerExpired, .timerExpired, .timerExpired, .timerExpired] = 5 := by
    decide
  rw [hc] at h
  exact ⟨t, ht, h.1, h.2.1, h.2.2.2.2⟩

/-- C9, as amended (sequence numbers and sent counter). Every timer tick of
`sendInterest` that passes the limit check increments the 64-bit sent
counter (by exactly one below `2 ^ 64 - 1`) and calls `expressInterest` once,
for the name prefix + (pre-increment sent counter). Whenever `run()`, started
on a client that has sent nothing, is waiting after some events, with fewer
than `2 ^ 64` calls made: the sent counter equals the number of calls of
`expressInterest`, the `k`-th call carries sequence number `k - 1`, and the
sequence numbers are strictly increasing and never reused. The requests the
face accepted are among these calls, in order, and are all of them when no
call throws, in which case the sent counter is also the number of requests
dispatched. With a productive generator, enough fuel lets `run()` handle any
sequence of deliveries. -/
theorem sequence_numbers (env : Env) (fuel : Nat) (s : NdnHelloWorldClient)
    (hzero : s.m_nMaximumInterests ≠ some 0) (hsent : s.m_nInterestsSent = 0)
    (hcalls : s.faceCalls = []) (hexp : s.expressed = []) (pre : List ClientEvent) :
    (∀ u u' : NdnHelloWorldClient, u.limitReached = false → sendInterest env fuel u = some u' →
      u'.m_nInterestsSent = (u.m_nInterestsSent + 1) % UINT64_MOD ∧
      (u.m_nInterestsSent < UINT64_MOD - 1 → u'.m_nInterestsSent = u.m_nInterestsSent + 1) ∧
      ∃ interest : Interest, u'.faceCalls = u.faceCalls ++ [interest] ∧
        interest.name = (Name.ofUri u.namePrefix).appendSequenceNumber u.m_nInterestsSent) ∧
    (∀ t, s.run env fuel pre = .blocked t →
      (t.faceCalls.length < UINT64_MOD →
        t.m_nInterestsSent = t.faceCalls.length ∧
        t.faceCalls.map (fun r => r.name) = (List.range t.faceCalls.length).map
          (fun i => (Name.ofUri s.namePrefix).appendSequenceNumber i) ∧
        t.faceCalls.map Interest.seqNo = List.range t.faceCalls.length ∧
        (t.faceCalls.map Interest.seqNo).Pairwise (· < ·) ∧
        (t.faceCalls.map Interest.seqNo).Nodup) ∧
      t.expressed.Sublist t.faceCalls ∧
      ((∀ i, env.expressInterest i = none) →
        t.expressed = t.faceCalls ∧
        (t.faceCalls.length < UINT64_MOD → t.m_nInterestsSent = t.expressed.length))) ∧
    (Productive env → s.ioStopped = false → (∀ e ∈ pre, e.isDelivery = true) →
      ∃ fuel' t, s.run env fuel' pre = .blocked t) := by
  refine ⟨?_, ?_, ?_⟩
  · intro u u' hl h
    obtain ⟨f1, _, _, _, _, _, _, _, _, interest, g1, g2, _, _⟩ :=
      sendInterest_fields env fuel u u' hl h
    refine ⟨f1, ?_, interest, g2, g1⟩
    intro hlt
    rw [f1]
    exact Nat.mod_eq_of_lt (by have : 0 < UINT64_MOD := by decide
                               omega)
  · intro t hrun
    have hpre := (run_blocked_iff env fuel s t pre hzero).mp hrun
    obtain ⟨b1, b2, b3, b4⟩ := processEvents_bookkeeping env fuel pre (s.started env).scheduled t
      hpre (by simp [started, scheduled, hsent, hcalls]) (by simp [started, scheduled, hcalls])
      (by simp [started, scheduled, hcalls, hexp])
    obtain ⟨⟨_, _, _, _, c5, _⟩, _, _⟩ := processEvents_blocked env fuel pre _ t hpre
    simp only [started, scheduled] at c5
    have hsentlen : t.faceCalls.length < UINT64_MOD → t.m_nInterestsSent = t.faceCalls.length :=
      fun hlt => by rw [b1]; exact Nat.mod_eq_of_lt hlt
    refine ⟨?_, b3, ?_⟩
    · intro hlt
      rw [map_range_mod _ (Nat.le_of_lt hlt), c5] at b2
      have hseq := seqNo_of_names t.faceCalls s.namePrefix _ b2
      refine ⟨hsentlen hlt, b2, hseq, ?_, ?_⟩
      · rw [hseq]; exact List.pairwise_lt_range _
      · rw [hseq]; exact List.nodup_range _
    · intro hr
      have hfe := b4 hr (by simp [started, scheduled, hcalls, hexp])
      exact ⟨hfe, fun hlt => by rw [hfe]; exact hsentlen hlt⟩
  · intro hp hio hpre
    obtain ⟨fuel', t, ht⟩ := processEvents_total env hp pre hpre (s.started env).scheduled
      (by simpa [started, scheduled] using hio)
    exact ⟨fuel', t, (run_blocked_iff env fuel' s t pre hzero).mpr ht⟩

/-- Counterexample to C9 as stated: with a face whose `expressInterest`
throws, one timer tick leaves the sent counter at 1 while no request was
dispatched to the channel. -/
theorem sent_counter_counts_failed_dispatch :
    ((new "/hello").run failingEnv 1 [.timerExpired]).state?.map
      (fun t => (t.m_nInterestsSent, t.expressed.length, t.faceCalls.length)) = some (1, 0, 1) := by
  decide

/-- Instance of C9 as amended: three ticks on a face whose first call throws. -/
theorem sequence_numbers_witness :
    ∃ t, (new "/hello").run flakyEnv 1 [.timerExpired, .timerExpired, .timerExpired] =
        .blocked t ∧
      t.m_nInterestsSent = 3 ∧ t.faceCalls.map Interest.seqNo = [0, 1, 2] ∧
      t.expressed.map Interest.seqNo = [1, 2] ∧
      (t.faceCalls.map Interest.seqNo).Pairwise (· < ·) := by
  refine ⟨_, rfl, by decide, by decide, by decide, ?_⟩
  exact (((sequence_numbers flakyEnv 1 (new "/hello") (by decide) rfl rfl rfl
    [.timerExpired, .timerExpired, .timerExpired]).2.1 _ rfl).1 (by decide)).2.2.2.1

/-! ## Delivery callbacks -/

/-- C10, as amended (client delivery callbacks). For every client state,
`onNack` and `onTimeout` leave the sent counter, the completed counter, the
nonce pool and the had-error flag unchanged; `onData` leaves the sent
counter, the nonce pool and the had-error flag unchanged and increments the
64-bit completed counter: by exactly one when it is below `2 ^ 64 - 1`, and
back to 0 when it is `2 ^ 64 - 1`. -/
theorem delivery_callbacks_frame (s : NdnHelloWorldClient) (i : Interest) (d : Data)
    (reason : String) :
    ((s.onNack i reason).m_nInterestsSent = s.m_nInterestsSent ∧
      (s.onNack i reason).m_nInterestsReceived = s.m_nInterestsReceived ∧
      (s.onNack i reason).m_nonces = s.m_nonces ∧
      (s.onNack i reason).m_hasError = s.m_hasError) ∧
    ((s.onTimeout i).m_nInterestsSent = s.m_nInterestsSent ∧
      (s.onTimeout i).m_nInterestsReceived = s.m_nInterestsReceived ∧
      (s.onTimeout i).m_nonces = s.m_nonces ∧
      (s.onTimeout i).m_hasError = s.m_hasError) ∧
    ((s.onData i d).m_nInterestsSent = s.m_nInterestsSent ∧
      (s.onData i d).m_nonces = s.m_nonces ∧
      (s.onData i d).m_hasError = s.m_hasError ∧
      (s.onData i d).m_nInterestsReceived = (s.m_nInterestsReceived + 1) % UINT64_MOD ∧
      (s.m_nInterestsReceived < UINT64_MOD - 1 →
        (s.onData i d).m_nInterestsReceived = s.m_nInterestsReceived + 1) ∧
      (s.m_nInterestsReceived = UINT64_MOD - 1 → (s.onData i d).m_nInterestsReceived = 0)) := by
  refine ⟨⟨rfl, rfl, rfl, rfl⟩, ⟨rfl, rfl, rfl, rfl⟩, rfl, rfl, rfl, rfl, ?_, ?_⟩
  · intro h
    have hlt : s.m_nInterestsReceived + 1 < UINT64_MOD := by
      have : 0 < UINT64_MOD := by decide
      omega
    simp only [onData]
    exact Nat.mod_eq_of_lt hlt
  · intro h
    simp only [onData, h]
    decide

/-- Instance of C10 as amended: a Data packet on a client that completed
four requests. -/
theorem delivery_callbacks_frame_witness :
    (({ new "/hello" with m_nInterestsSent := 5, m_nInterestsReceived := 4 } :
        NdnHelloWorldClient).onData (sampleInterest 4)
      ((NdnHelloWorldServer.new "/hello" true).makeData (sampleInterest 4))).m_nInterestsReceived
      = 4 + 1 :=
  (delivery_callbacks_frame { new "/hello" with m_nInterestsSent := 5, m_nInterestsReceived := 4 }
    (sampleInterest 4) ((NdnHelloWorldServer.new "/hello" true).makeData (sampleInterest 4))
    "").2.2.2.2.2.2.1 (by decide)

/-- Counterexample to C10 as stated: on a client whose completed counter is
`2 ^ 64 - 1`, `onData` does not increment the counter by one; it sets it to 0. -/
theorem onData_wraps :
    (({ new "/hello" with m_nInterestsSent := 18446744073709551615,
                          m_nInterestsReceived := 18446744073709551615 } :
        NdnHelloWorldClient).onData (sampleInterest 0)
      ((NdnHelloWorldServer.new "/hello" true).makeData (sampleInterest 0))).m_nInterestsReceived
      = 0 ∧
    (({ new "/hello" with m_nInterestsSent := 18446744073709551615,
                          m_nInterestsReceived := 18446744073709551615 } :
        NdnHelloWorldClient).onData (sampleInterest 0)
      ((NdnHelloWorldServer.new "/hello" true).makeData (sampleInterest 0))).m_nInterestsReceived
      ≠ 18446744073709551615 + 1 := by
  constructor <;> decide

end NdnHelloWorldClient

/-! ## Exceptions raised by the channel -/

namespace NdnHelloWorldClient

/-- C7, as amended (channel exceptions in the client). An exception that
leaves `processEvents` while the loop is waiting is caught at the top level
of `run()`, logged, and makes `run()` stop the io context and return 1 at
once: the client is left as it was at that moment, whatever events were still
to come, so no further tick runs and no further request is sent. An
exception raised by `expressInterest` inside `sendInterest` does not reach
`run()`: `sendInterest` catches and logs it, leaves the io context running
and reschedules the timer. With a productive generator, enough fuel lets the
loop handle any sequence of deliveries before the exception. -/
theorem channel_exception (env : Env) (fuel : Nat) (s : NdnHelloWorldClient)
    (pre post : List ClientEvent) (what : String) (hzero : s.m_nMaximumInterests ≠ some 0) :
    (∀ t, s.run env fuel pre = .blocked t →
      s.run env fuel (pre ++ .channelError what :: post) =
        .returned 1 { t with m_logger := t.m_logger.log ("ERROR: " ++ what) true true
                             ioStopped := true }) ∧
    (∀ (u u' : NdnHelloWorldClient) (w : String), u.limitReached = false →
      env.expressInterest u.faceCalls.length = some w → sendInterest env fuel u = some u' →
      u'.m_logger = u.m_logger.log ("ERROR: " ++ w) true true ∧
      u'.expressed = u.expressed ∧
      u'.timer = { expiry := u.timer.expiry + u.m_interestInterval, pending := true } ∧
      u'.ioStopped = u.ioStopped ∧ u'.m_hasError = u.m_hasError) ∧
    (Productive env → s.ioStopped = false → (∀ e ∈ pre, e.isDelivery = true) →
      ∃ fuel' t, s.run env fuel' pre = .blocked t) := by
  refine ⟨?_, ?_, ?_⟩
  · intro t hblocked
    have hpre := (run_blocked_iff env fuel s t pre hzero).mp hblocked
    obtain ⟨_, hio, happ⟩ := processEvents_blocked env fuel pre _ t hpre
    have hz : ((s.started env).m_nMaximumInterests == some 0) = false := by
      simpa [started] using hzero
    have hloop : processEvents env fuel (s.started env).scheduled
        (pre ++ .channelError what :: post) = .threw what t := by
      rw [happ]; simp [processEvents, hio]
    simp only [run, hz, hloop]
    simp
  · intro u u' w hl hw h
    obtain ⟨_, _, f3, _, _, _, f7, _, f9, _, _, _, _, g4⟩ := sendInterest_fields env fuel u u' hl h
    exact ⟨(g4 w hw).2, (g4 w hw).1, f9, f7, f3⟩
  · intro hp hio hpre
    obtain ⟨fuel', t, ht⟩ := processEvents_total env hp pre hpre (s.started env).scheduled
      (by simpa [started, scheduled] using hio)
    exact ⟨fuel', t, (run_blocked_iff env fuel' s t pre hzero).mpr ht⟩

/-- Instance of C7 as amended: an exception escapes the loop after one
request was sent; a further timer expiration and the signal no longer count. -/
theorem channel_exception_witness :
    ((new "/hello").run reliableEnv 1
      ([.timerExpired] ++ .channelError "connection reset" :: [.timerExpired, .signal])).exitCode
        = some 1 ∧
    (((new "/hello").run reliableEnv 1
      ([.timerExpired] ++ .channelError "connection reset" :: [.timerExpired, .signal])).state?.map
        (fun t => (t.expressed.length, t.ioStopped))) = some (1, true) := by
  have h := (channel_exception reliableEnv 1 (new "/hello") [.timerExpired]
    [.timerExpired, .signal] "connection reset" (by decide)).1 _ rfl
  rw [h]
  exact ⟨rfl, by decide⟩

/-- Counterexample to C7 as stated: the face throws in the first call of
`expressInterest`. After that tick `run()` has not returned, the io context
is not stopped and the timer is pending again; the exception was logged by
`sendInterest`; and the next tick sends a further request. -/
theorem dispatch_exception_does_not_stop :
    ((new "/hello").run flakyEnv 1 [.timerExpired]).exitCode = none ∧
    ((new "/hello").run flakyEnv 1 [.timerExpired]).state?.map
      (fun t => (t.ioStopped, t.timer.pending, t.expressed.length, t.m_logger.lines)) =
      some (false, true, 0, [{ text := "ERROR: transport failure", flagA := true, flagB := true }]) ∧
    ((new "/hello").run flakyEnv 1 [.timerExpired, .timerExpired]).exitCode = none ∧
    ((new "/hello").run flakyEnv 1 [.timerExpired, .timerExpired]).state?.map
      (fun t => (t.ioStopped, t.timer.pending, t.expressed.length)) = some (false, true, 1) := by
  refine ⟨by decide, by decide, by decide, by decide⟩

end NdnHelloWorldClient

/-! ## Configuration errors -/

/-- C8, as amended (configuration errors). For every parsed command line
without `--help`, `main` returns exit code 2 before `run()` is entered
whenever the count is negative (both roles) or the interval is zero or
negative (client); it also returns 2 when parsing itself fails. -/
theorem configuration_errors (freshnessEnabled : Bool) (vm : VariablesMap)
    (hhelp : vm.help = false) :
    ((∃ c, vm.count = some c ∧ c < 0) →
      clientSetup (.ok vm) = .exit 2 ∧ serverSetup freshnessEnabled (.ok vm) = .exit 2 ∧
      ∀ env fuel cev sev, clientMain env fuel (.ok vm) cev = some 2 ∧
        serverMain env freshnessEnabled (.ok vm) sev = some 2) ∧
    ((∃ i, vm.interval = some i ∧ i ≤ 0) →
      clientSetup (.ok vm) = .exit 2 ∧
      ∀ env fuel cev, clientMain env fuel (.ok vm) cev = some 2) ∧
    (∀ msg, clientSetup (.error msg) = .exit 2 ∧
      serverSetup freshnessEnabled (.error msg) = .exit 2) := by
  refine ⟨?_, ?_, ?_⟩
  · rintro ⟨c, hc, hneg⟩
    have h1 : clientSetup (.ok vm) = .exit 2 := by simp [clientSetup, hhelp, hc, hneg]
    have h2 : serverSetup freshnessEnabled (.ok vm) = .exit 2 := by
      simp [serverSetup, hhelp, hc, hneg]
    refine ⟨h1, h2, ?_⟩
    intro env fuel cev sev
    simp [clientMain, serverMain, h1, h2]
  · rintro ⟨i, hi, hle⟩
    have h1 : clientSetup (.ok vm) = .exit 2 := by
      cases hc : vm.count with
      | none => simp [clientSetup, clientIntervalStep, hhelp, hc, hi, hle]
      | some c =>
        by_cases hneg : c < 0
        · simp [clientSetup, hhelp, hc, hneg]
        · simp [clientSetup, clientIntervalStep, hhelp, hc, hneg, hi, hle]
    refine ⟨h1, ?_⟩
    intro env fuel cev
    simp [clientMain, h1]
  · intro msg
    exact ⟨rfl, rfl⟩

/-- Instance of C8 as amended: `--count=-1` for both roles. -/
theorem configuration_errors_witness :
    clientMain reliableEnv 1 (.ok negativeCountArgs) [.timerExpired, .signal] = some 2 ∧
    serverMain reliableEnv true (.ok negativeCountArgs) [.signal] = some 2 :=
  ((configuration_errors true negativeCountArgs rfl).1 ⟨-1, rfl, by decide⟩).2.2
    reliableEnv 1 [.timerExpired, .signal] [.signal]

/-- Counterexample to C8 as stated: with no NAME-PREFIX on the command line
neither `main` returns 2; each enters `run()` with the empty prefix (the
client then sends its first request and exits 1 on the signal, the server
answers a request and exits 0 on the signal). And with `--help`, `main`
returns 0 even when the count is negative. -/
theorem missing_prefix_enters_run :
    clientSetup (.ok noPrefixArgs) =
      .start ((NdnHelloWorldClient.new "").setInterestInterval 1000) ∧
    clientMain reliableEnv 1 (.ok noPrefixArgs) [.timerExpired, .signal] = some 1 ∧
    serverSetup true (.ok noPrefixArgs) = .start (NdnHelloWorldServer.new "" true) ∧
    serverMain reliableEnv true (.ok noPrefixArgs) [.interest (sampleInterest 0), .signal]
      = some 0 ∧
    clientMain reliableEnv 1 (.ok helpArgs) [] = some 0 ∧
    serverMain reliableEnv true (.ok helpArgs) [] = some 0 := by
  refine ⟨rfl, by decide, rfl, by decide, by decide, by decide⟩

/-! ## Zero quota -/

/-- C6 (zero quota). For either role, when the configured maximum is exactly
0, `run()` returns 0 whatever events are pending, and leaves every member and
collaborator as it was, apart from the logger and the random generator: no
request is dispatched and no timer or signal wait is started (client), the
filter is not registered and nothing is served (server), and the counters
keep their value. When no maximum is configured, `run()` does not return
before an event: the client has its timer and signal wait pending, the server
has its filter registered. -/
theorem zero_quota (env : Env) (fuel : Nat) (c : NdnHelloWorldClient)
    (sv : NdnHelloWorldServer) (cev : List ClientEvent) (sev : List ServerEvent)
    (hc : c.m_nMaximumInterests = some 0) (hs : sv.m_nMaximumInterests = some 0) :
    (c.run env fuel cev = .returned 0
      { c with rndPos := c.rndPos + 1
               m_logger := (c.m_logger.start (generateWord32 env c.rndPos)).log
                 "Maximum Interests = 0, finishing..." true true }) ∧
    (sv.run env sev = .returned 0
      { sv with rndPos := sv.rndPos + 1
                m_logger := sv.m_logger.start (generateWord32 env sv.rndPos) }) ∧
    (∀ c0 : NdnHelloWorldClient, c0.m_nMaximumInterests = none → c0.ioStopped = false →
      c0.run env fuel [] = .blocked (c0.started env).scheduled ∧
      (c0.started env).scheduled.timer.pending = true ∧
      (c0.started env).scheduled.signalWaiting = true) ∧
    (∀ sv0 : NdnHelloWorldServer, sv0.m_nMaximumInterests = none → sv0.ioStopped = false →
      sv0.run env [] = .blocked (sv0.started env).listening ∧
      (sv0.started env).listening.filterRegistered = true ∧
      (sv0.started env).listening.signalWaiting = true) := by
  refine ⟨?_, ?_, ?_, ?_⟩
  · simp [NdnHelloWorldClient.run, NdnHelloWorldClient.started, hc]
  · simp [NdnHelloWorldServer.run, NdnHelloWorldServer.started, hs]
  · intro c0 h0 hio
    refine ⟨?_, rfl, rfl⟩
    have hz : ((c0.started env).m_nMaximumInterests == some 0) = false := by
      simp [NdnHelloWorldClient.started, h0]
    have hl : NdnHelloWorldClient.processEvents env fuel (c0.started env).scheduled [] =
        .blocked (c0.started env).scheduled := by
      simp [NdnHelloWorldClient.processEvents, NdnHelloWorldClient.started,
        NdnHelloWorldClient.scheduled, hio]
    simp only [NdnHelloWorldClient.run, hz, hl]
    simp
  · intro sv0 h0 hio
    refine ⟨?_, rfl, rfl⟩
    have hz : ((sv0.started env).m_nMaximumInterests == some 0) = false := by
      simp [NdnHelloWorldServer.started, h0]
    have hl : NdnHelloWorldServer.processEvents (sv0.started env).listening [] =
        .blocked (sv0.started env).listening := by
      simp [NdnHelloWorldServer.processEvents, NdnHelloWorldServer.started,
        NdnHelloWorldServer.listening, hio]
    simp only [NdnHelloWorldServer.run, hz, hl]
    simp

/-- Instance of C6: a client and a server built as `main` builds them for
`--count 0`, with events pending; every counter is still 0 afterwards. -/
theorem zero_quota_witness :
    (((NdnHelloWorldClient.new "/hello").setMaximumInterests 0).run reliableEnv 1
      [.timerExpired, .signal]).exitCode = some 0 ∧
    (((NdnHelloWorldServer.new "/hello" true).setMaximumInterests 0).run reliableEnv
      [.interest (sampleInterest 0), .signal]).exitCode = some 0 ∧
    ((NdnHelloWorldClient.new "/hello").setMaximumInterests 0).m_nInterestsSent = 0 ∧
    ((NdnHelloWorldClient.new "/hello").setMaximumInterests 0).m_nInterestsReceived = 0 ∧
    ((NdnHelloWorldClient.new "/hello").setMaximumInterests 0).expressed = [] ∧
    ((NdnHelloWorldServer.new "/hello" true).setMaximumInterests 0).m_nInterestsReceived = 0 ∧
    ((NdnHelloWorldServer.new "/hello" true).setMaximumInterests 0).put = [] ∧
    ((NdnHelloWorldServer.new "/hello" true).setMaximumInterests 0).filterRegistered = false := by
  have h := zero_quota reliableEnv 1 ((NdnHelloWorldClient.new "/hello").setMaximumInterests 0)
    ((NdnHelloWorldServer.new "/hello" true).setMaximumInterests 0)
    [.timerExpired, .signal] [.interest (sampleInterest 0), .signal] rfl rfl
  refine ⟨?_, ?_, rfl, rfl, rfl, rfl, rfl, rfl⟩
  · rw [h.1]; rfl
  · rw [h.2.1]; rfl

end ndnhw
